import Mathlib

/-!
Verification development for the browser-chess engine
(`js/engine/Board.js`, `Move.js`, `Rules.js`, `GameState.js`,
`Evaluator.js`, `AI.js`, and `js/Game.js`).

Shallow embedding conventions:
* A square is its board index `0..63` (rank-major, a1 = 0, h8 = 63).  The
  source stores squares as two-character algebraic strings and converts with
  `algebraicToIndex` / `indexToAlgebraic`, a bijection on valid squares; the
  embedding works with the index directly and provides `indexToAlgebraic` as
  a string builder where the source manipulates the algebraic text itself
  (SAN notation, repetition keys).
* A piece code such as "wP" is the pair of its color and type.
* The 64-slot board array is a `List (Option Piece)`; reads out of range give
  `none` (JS `undefined`), writes out of range leave the list unchanged
  (such writes only arise for inputs that violate the source's documented
  preconditions).
* JS file/rank arithmetic is done on `Int` so that negative intermediate
  coordinates behave as in the source (bounds checks before indexing).
* Mutation is modelled by explicit state passing.
-/

/-- Piece color, the source's "white" / "black" strings. -/
inductive Color where
  | white
  | black
deriving DecidableEq, Repr, Inhabited

/-- Piece type, the second character of a piece code ("P","N","B","R","Q","K"). -/
inductive PieceType where
  | P
  | N
  | B
  | R
  | Q
  | K
deriving DecidableEq, Repr, Inhabited

/-- A piece code such as "wP": color plus type. -/
structure Piece where
  color : Color
  ptype : PieceType
deriving DecidableEq, Repr, Inhabited

/-- Board.js `oppositeColor`. -/
def oppositeColor (color : Color) : Color :=
  match color with
  | .white => .black
  | .black => .white

/-- Board.js `getColorOf`: `null` input gives `null`. -/
def getColorOf (piece : Option Piece) : Option Color :=
  piece.map Piece.color

/-- The board: 64 slots, piece code or empty (`board[64]` in the source). -/
abbrev Board := List (Option Piece)

/-- Read `board[i]`; out-of-range reads give `none` (JS `undefined`). -/
def boardGet (board : Board) (i : Nat) : Option Piece :=
  board.getD i none

/-- Write `board[i] = v` at a JS (possibly negative) index.  In-range writes
update the slot; other writes are dropped (they cannot occur for inputs that
satisfy the source's legality preconditions). -/
def boardSetI (board : Board) (i : Int) (v : Option Piece) : Board :=
  if i < 0 then board else board.set i.toNat v

/-- Board.js `indexToAlgebraic`, producing the two-character string. -/
def indexToAlgebraic (index : Nat) : String :=
  let file := index % 8
  let rank := index / 8
  String.mk [Char.ofNat (97 + file), Char.ofNat (49 + rank)]

/-- The string code of a piece, e.g. "wP" (used by the repetition key). -/
def pieceCode (p : Piece) : String :=
  let c := match p.color with
    | .white => "w"
    | .black => "b"
  let t := match p.ptype with
    | .P => "P"
    | .N => "N"
    | .B => "B"
    | .R => "R"
    | .Q => "Q"
    | .K => "K"
  c ++ t

/-- Per-side castling flags ({kingSide, queenSide}). -/
structure SideRights where
  kingSide : Bool
  queenSide : Bool
deriving DecidableEq, Repr, Inhabited

/-- The castlingRights object: four independent booleans. -/
structure CastlingRights where
  white : SideRights
  black : SideRights
deriving DecidableEq, Repr, Inhabited

/-!  Move.js  -/

/-- Move.js `Move`.  `from`/`to` are Lean keywords, hence `fromSq`/`toSq`.
Absent optional JS fields (`undefined`) are `none` / `false`. -/
structure Move where
  fromSq : Nat
  toSq : Nat
  piece : Piece
  captured : Option Piece
  promotion : Option PieceType
  isEnPassant : Bool
  isCastleKingSide : Bool
  isCastleQueenSide : Bool
deriving DecidableEq, Repr, Inhabited

/-- Move.js `createMove` (the `captured || null` default is the `Option`). -/
def createMove (fromSq toSq : Nat) (piece : Piece) (captured : Option Piece := none) : Move :=
  { fromSq := fromSq, toSq := toSq, piece := piece, captured := captured,
    promotion := none, isEnPassant := false,
    isCastleKingSide := false, isCastleQueenSide := false }

/-- Move.js `createPromotionMove`. -/
def createPromotionMove (fromSq toSq : Nat) (piece : Piece) (promotion : PieceType)
    (captured : Option Piece := none) : Move :=
  { fromSq := fromSq, toSq := toSq, piece := piece, captured := captured,
    promotion := some promotion, isEnPassant := false,
    isCastleKingSide := false, isCastleQueenSide := false }

/-- Move.js `createEnPassantMove`. -/
def createEnPassantMove (fromSq toSq : Nat) (piece : Piece) (captured : Piece) : Move :=
  { fromSq := fromSq, toSq := toSq, piece := piece, captured := some captured,
    promotion := none, isEnPassant := true,
    isCastleKingSide := false, isCastleQueenSide := false }

/-- Move.js `createCastleMove`. -/
def createCastleMove (fromSq toSq : Nat) (piece : Piece) (kingSide : Bool) : Move :=
  { fromSq := fromSq, toSq := toSq, piece := piece, captured := none,
    promotion := none, isEnPassant := false,
    isCastleKingSide := kingSide, isCastleQueenSide := !kingSide }

/-!  Rules.js  -/

/-- The reduced state object consumed by Rules.js (`asRulesState()` shape). -/
structure RulesState where
  board : Board
  activeColor : Color
  castlingRights : CastlingRights
  enPassantTarget : Option Nat
deriving DecidableEq, Repr, Inhabited

/-- Rules.js `findKingSquare`: index of the first slot holding that color's
king, or `none`. -/
def findKingSquare (board : Board) (color : Color) : Option Nat :=
  (List.range 64).find? fun i => boardGet board i = some ⟨color, .K⟩

/-- The sliding-attack walk inside `squareAttackedBy`: starting one step from
the attacker, advance by (stepF, stepR) until the target square is reached
(true) or the walk leaves the board or hits an occupied square (false).  The
walk is only entered along a ray aligned with the target, so it ends within
seven steps; the fuel of 8 makes the recursion structural. -/
def rayReaches (board : Board) (tf tr stepF stepR : Int) : Nat → Int → Int → Bool
  | 0, f, r => f = tf && r = tr
  | fuel + 1, f, r =>
    if f = tf && r = tr then true
    else if f < 0 || f > 7 || r < 0 || r > 7 then false
    else if (boardGet board (r * 8 + f).toNat).isSome then false
    else rayReaches board tf tr stepF stepR fuel (f + stepF) (r + stepR)

/-- One attacker candidate of `squareAttackedBy`'s scan: does the piece on
slot `i` (when of `attackerColor`) attack the target square? -/
def attackerHits (board : Board) (targetIndex : Nat) (attackerColor : Color) (i : Nat) : Bool :=
  match boardGet board i with
  | none => false
  | some piece =>
    if piece.color ≠ attackerColor then false
    else
      let tf : Int := targetIndex % 8
      let tr : Int := targetIndex / 8
      let file : Int := i % 8
      let rank : Int := i / 8
      match piece.ptype with
      | .P =>
        let dir : Int := if attackerColor = .white then 1 else -1
        let captureRanks := rank + dir
        captureRanks = tr && (file - tf).natAbs = 1
      | .N =>
        let df := (file - tf).natAbs
        let dr := (rank - tr).natAbs
        (df = 1 && dr = 2) || (df = 2 && dr = 1)
      | .K =>
        max (file - tf).natAbs (rank - tr).natAbs = 1
      | t =>
        let df := tf - file
        let dr := tr - rank
        let adf := df.natAbs
        let adr := dr.natAbs
        let diag : Int × Int :=
          if (t = .B || t = .Q) && (adf = adr && adf > 0) then
            (if df > 0 then 1 else -1, if dr > 0 then 1 else -1)
          else (0, 0)
        let steps : Int × Int :=
          if t = .R || t = .Q then
            if df = 0 && adr > 0 then (0, if dr > 0 then 1 else -1)
            else if dr = 0 && adf > 0 then ((if df > 0 then 1 else -1), 0)
            else diag
          else diag
        let stepF := steps.1
        let stepR := steps.2
        if stepF ≠ 0 || stepR ≠ 0 then
          rayReaches board tf tr stepF stepR 8 (file + stepF) (rank + stepR)
        else false

/-- Rules.js `squareAttackedBy`: scan all 64 slots for an attacking piece of
the given color (the source returns on the first hit; `any` agrees). -/
def squareAttackedBy (state : RulesState) (targetIndex : Nat) (attackerColor : Color) : Bool :=
  (List.range 64).any (attackerHits state.board targetIndex attackerColor)

/-- Pawn advance helper `addPawnAdvance`: promotion expansion on the
promotion rank (order Q, R, B, N), else a single push. -/
def addPawnAdvance (fromSq toIndex : Nat) (color : Color) (promotionRank : Int) : List Move :=
  let piece : Piece := ⟨color, .P⟩
  let rank : Int := fromSq / 8
  if rank = promotionRank then
    [createPromotionMove fromSq toIndex piece .Q,
     createPromotionMove fromSq toIndex piece .R,
     createPromotionMove fromSq toIndex piece .B,
     createPromotionMove fromSq toIndex piece .N]
  else
    [createMove fromSq toIndex piece]

/-- Pawn capture helper `addPawnCapture`. -/
def addPawnCapture (fromSq toIndex : Nat) (color : Color) (capturedPiece : Piece)
    (promotionRank : Int) : List Move :=
  let piece : Piece := ⟨color, .P⟩
  let rank : Int := fromSq / 8
  if rank = promotionRank then
    [createPromotionMove fromSq toIndex piece .Q (some capturedPiece),
     createPromotionMove fromSq toIndex piece .R (some capturedPiece),
     createPromotionMove fromSq toIndex piece .B (some capturedPiece),
     createPromotionMove fromSq toIndex piece .N (some capturedPiece)]
  else
    [createMove fromSq toIndex piece (some capturedPiece)]

/-- One capture file of `generatePawnMoves`'s capture loop (`cf` ranges over
`file-1` and `file+1`): a regular/promotion capture followed by the en
passant candidate, in source push order. -/
def pawnCapturesAt (board : Board) (fromIndex : Nat) (file rank : Int) (color enemy : Color)
    (epIndex : Int) (promotionRank : Int) (cf : Int) : List Move :=
  if cf < 0 || cf > 7 then []
  else
    let dir : Int := if color = .white then 1 else -1
    let targetRank := rank + dir
    if targetRank < 0 || targetRank > 7 then []
    else
      let targetIndex := (targetRank * 8 + cf).toNat
      let targetPiece := boardGet board targetIndex
      let caps :=
        match targetPiece with
        | some tp =>
          if tp.color = enemy then
            addPawnCapture fromIndex targetIndex color tp promotionRank
          else []
        | none => []
      let eps :=
        if epIndex = (targetIndex : Int) && targetPiece.isNone then
          let epPawnIndex := (rank * 8 + cf).toNat
          match boardGet board epPawnIndex with
          | some captured =>
            if captured.color = enemy then
              [createEnPassantMove fromIndex targetIndex ⟨color, .P⟩ captured]
            else []
          | none => []
        else []
      caps ++ eps

/-- Rules.js `generatePawnMoves` (moves pushed in source order: forward push,
double push, then the two capture files). -/
def generatePawnMoves (board : Board) (fromIndex : Nat) (file rank : Int)
    (color enemy : Color) (epIndex : Int) : List Move :=
  let dir : Int := if color = .white then 1 else -1
  let startRank : Int := if color = .white then 1 else 6
  let promotionRank : Int := if color = .white then 6 else 1
  let oneStepRank := rank + dir
  let forward :=
    if 0 ≤ oneStepRank && oneStepRank ≤ 7 then
      let oneStepIndex := (oneStepRank * 8 + file).toNat
      if (boardGet board oneStepIndex).isNone then
        let advance := addPawnAdvance fromIndex oneStepIndex color promotionRank
        let double :=
          if rank = startRank then
            let twoStepRank := rank + 2 * dir
            let twoStepIndex := (twoStepRank * 8 + file).toNat
            if (boardGet board twoStepIndex).isNone then
              [createMove fromIndex twoStepIndex ⟨color, .P⟩]
            else []
          else []
        advance ++ double
      else []
    else []
  forward
    ++ pawnCapturesAt board fromIndex file rank color enemy epIndex promotionRank (file - 1)
    ++ pawnCapturesAt board fromIndex file rank color enemy epIndex promotionRank (file + 1)

/-- Rules.js `generateKnightMoves` (fixed jump table order). -/
def generateKnightMoves (board : Board) (fromIndex : Nat) (mover : Piece) (color : Color) :
    List Move :=
  let file : Int := fromIndex % 8
  let rank : Int := fromIndex / 8
  let jumps : List (Int × Int) :=
    [(1, 2), (2, 1), (2, -1), (1, -2), (-1, -2), (-2, -1), (-2, 1), (-1, 2)]
  jumps.flatMap fun jump =>
    let nf := file + jump.1
    let nr := rank + jump.2
    if nf < 0 || nf > 7 || nr < 0 || nr > 7 then []
    else
      let toIndex := (nr * 8 + nf).toNat
      match boardGet board toIndex with
      | none => [createMove fromIndex toIndex mover none]
      | some target =>
        if target.color ≠ color then [createMove fromIndex toIndex mover (some target)]
        else []

/-- One ray of Rules.js `generateSlidingMoves`: the `while (true)` walk,
structural on a fuel of 8 (a ray holds at most seven further squares). -/
def slidingRay (board : Board) (fromIndex : Nat) (mover : Piece) (color : Color)
    (df dr : Int) : Nat → Int → Int → List Move
  | 0, _, _ => []
  | fuel + 1, file, rank =>
    let file := file + df
    let rank := rank + dr
    if file < 0 || file > 7 || rank < 0 || rank > 7 then []
    else
      let toIndex := (rank * 8 + file).toNat
      match boardGet board toIndex with
      | none =>
        createMove fromIndex toIndex mover none
          :: slidingRay board fromIndex mover color df dr fuel file rank
      | some target =>
        if target.color ≠ color then [createMove fromIndex toIndex mover (some target)]
        else []

/-- Rules.js `generateSlidingMoves` over a direction list. -/
def generateSlidingMoves (board : Board) (fromIndex : Nat) (mover : Piece) (color : Color)
    (dirs : List (Int × Int)) : List Move :=
  let file : Int := fromIndex % 8
  let rank : Int := fromIndex / 8
  dirs.flatMap fun d => slidingRay board fromIndex mover color d.1 d.2 8 file rank

/-- Rules.js `generateKingMoves` (adjacent squares, df outer / dr inner). -/
def generateKingMoves (board : Board) (fromIndex : Nat) (mover : Piece) (color : Color) :
    List Move :=
  let file : Int := fromIndex % 8
  let rank : Int := fromIndex / 8
  let deltas : List (Int × Int) :=
    [(-1, -1), (-1, 0), (-1, 1), (0, -1), (0, 1), (1, -1), (1, 0), (1, 1)]
  deltas.flatMap fun d =>
    let nf := file + d.1
    let nr := rank + d.2
    if nf < 0 || nf > 7 || nr < 0 || nr > 7 then []
    else
      let toIndex := (nr * 8 + nf).toNat
      match boardGet board toIndex with
      | none => [createMove fromIndex toIndex mover none]
      | some target =>
        if target.color ≠ color then [createMove fromIndex toIndex mover (some target)]
        else []

/-- Rules.js `generateCastlingMoves`: home-square king with the rights flag,
empty between squares, king's current/transit/destination squares unattacked
(king side first, then queen side). -/
def generateCastlingMoves (state : RulesState) (kingIndex : Nat) (mover : Piece)
    (color : Color) : List Move :=
  let board := state.board
  let rights := match color with
    | .white => state.castlingRights.white
    | .black => state.castlingRights.black
  let rank : Nat := if color = .white then 0 else 7
  let kingStartIndex := rank * 8 + 4
  if kingIndex ≠ kingStartIndex then []
  else
    let enemy := oppositeColor color
    if squareAttackedBy state kingIndex enemy then []
    else
      let kingSideMoves :=
        if rights.kingSide then
          let fIndex := rank * 8 + 5
          let gIndex := rank * 8 + 6
          if (boardGet board fIndex).isNone && (boardGet board gIndex).isNone then
            if !squareAttackedBy state fIndex enemy && !squareAttackedBy state gIndex enemy then
              [createCastleMove kingIndex gIndex mover true]
            else []
          else []
        else []
      let queenSideMoves :=
        if rights.queenSide then
          let dIndex := rank * 8 + 3
          let cIndex := rank * 8 + 2
          let bIndex := rank * 8 + 1
          if (boardGet board dIndex).isNone && (boardGet board cIndex).isNone
              && (boardGet board bIndex).isNone then
            if !squareAttackedBy state dIndex enemy && !squareAttackedBy state cIndex enemy then
              [createCastleMove kingIndex cIndex mover false]
            else []
          else []
        else []
      kingSideMoves ++ queenSideMoves

/-- Rules.js `generatePseudoLegalMoves`: scan slots 0..63 in order and emit
each own-color piece's candidate moves. -/
def generatePseudoLegalMoves (state : RulesState) : List Move :=
  let activeColor := state.activeColor
  let enemy := oppositeColor activeColor
  let epIndex : Int := match state.enPassantTarget with
    | some n => (n : Int)
    | none => -1
  (List.range 64).flatMap fun fromIndex =>
    match boardGet state.board fromIndex with
    | none => []
    | some piece =>
      if piece.color ≠ activeColor then []
      else
        let file : Int := fromIndex % 8
        let rank : Int := fromIndex / 8
        match piece.ptype with
        | .P => generatePawnMoves state.board fromIndex file rank activeColor enemy epIndex
        | .N => generateKnightMoves state.board fromIndex piece activeColor
        | .B => generateSlidingMoves state.board fromIndex piece activeColor
            [(1, 1), (1, -1), (-1, 1), (-1, -1)]
        | .R => generateSlidingMoves state.board fromIndex piece activeColor
            [(1, 0), (-1, 0), (0, 1), (0, -1)]
        | .Q => generateSlidingMoves state.board fromIndex piece activeColor
            [(1, 0), (-1, 0), (0, 1), (0, -1), (1, 1), (1, -1), (-1, 1), (-1, -1)]
        | .K => generateKingMoves state.board fromIndex piece activeColor
            ++ generateCastlingMoves state fromIndex piece activeColor

/-- The scratch board built inside Rules.js `leavesKingInCheck`: apply the
move's piece placements only (origin cleared, en-passant pawn removed,
promotion piece or moved piece placed, castle rook relocated). -/
def simulateMoveBoard (state : RulesState) (move : Move) : Board :=
  let fromIndex := move.fromSq
  let toIndex := move.toSq
  let b := state.board.set fromIndex none
  let b :=
    if move.isEnPassant then
      let dir : Int := if move.piece.color = .white then -1 else 1
      let tf : Int := toIndex % 8
      let tr : Int := toIndex / 8
      boardSetI b ((tr + dir) * 8 + tf) none
    else b
  let b :=
    match move.promotion with
    | some promo => b.set toIndex (some ⟨move.piece.color, promo⟩)
    | none => b.set toIndex (some move.piece)
  if move.isCastleKingSide || move.isCastleQueenSide then
    let rank : Nat := if move.piece.color = .white then 0 else 7
    if move.isCastleKingSide then
      let rookFrom := rank * 8 + 7
      let rookTo := rank * 8 + 5
      (b.set rookTo (boardGet b rookFrom)).set rookFrom none
    else
      let rookFrom := rank * 8 + 0
      let rookTo := rank * 8 + 3
      (b.set rookTo (boardGet b rookFrom)).set rookFrom none
  else b

/-- Rules.js `leavesKingInCheck`: simulate the move on a scratch copy and ask
whether the mover's king is attacked afterwards (a missing king counts as
illegal). -/
def leavesKingInCheck (state : RulesState) (move : Move) : Bool :=
  let cloneBoard := simulateMoveBoard state move
  let moverColor := state.activeColor
  let enemy := oppositeColor moverColor
  match findKingSquare cloneBoard moverColor with
  | none => true
  | some kingSq =>
    squareAttackedBy
      { board := cloneBoard, activeColor := enemy,
        castlingRights := state.castlingRights,
        enPassantTarget := state.enPassantTarget }
      kingSq enemy

/-- Rules.js `generateLegalMoves`: the pseudo-legal moves whose simulation
does not leave the mover's king in check. -/
def generateLegalMoves (state : RulesState) : List Move :=
  (generatePseudoLegalMoves state).filter fun move => !leavesKingInCheck state move

/-- Rules.js `isInCheck`: locate the (overridden) color's king — `false`
when absent — and test attack by the opposing color. -/
def isInCheck (state : RulesState) (colorOverride : Option Color) : Bool :=
  let color := colorOverride.getD state.activeColor
  let enemy := oppositeColor color
  match findKingSquare state.board color with
  | none => false
  | some kingSquare => squareAttackedBy state kingSquare enemy

/-- Rules.js `analyzePosition`: {hasLegalMoves, isCheck} for the side to move. -/
def analyzePosition (state : RulesState) : Bool × Bool :=
  ((generateLegalMoves state).length > 0, isInCheck state none)

/-!  GameState.js  -/

/-- The result object { outcome, winner?, reason? }. -/
structure GameResult where
  outcome : String
  winner : Option Color
  reason : Option String
deriving DecidableEq, Repr, Inhabited

/-- The color strings "white" / "black" as used inside status text and the
repetition key. -/
def colorString (color : Color) : String :=
  match color with
  | .white => "white"
  | .black => "black"

/-- Session state owned by GameState.js.  `statusText` / `lastMoveText` are
`""` / `none` where the source leaves them `undefined`. -/
structure GameState where
  board : Board
  activeColor : Color
  playerColor : Color
  castlingRights : CastlingRights
  enPassantTarget : Option Nat
  halfmoveClock : Nat
  fullmoveNumber : Nat
  moveHistory : List String
  result : Option GameResult
  lastMove : Option (Nat × Nat)
  repetitionMap : List (String × Nat)
  selectedSquare : Option Nat
  cachedLegalTargets : List Nat
  statusText : String
  lastMoveText : Option String
deriving DecidableEq, Repr, Inhabited

/-- JS `Map.get` on the insertion-ordered association list. -/
def mapGet (m : List (String × Nat)) (k : String) : Option Nat :=
  (m.find? fun e => e.1 == k).map fun e => e.2

/-- JS `Map.set`: overwrite in place when the key exists (keeping insertion
order), else append. -/
def mapSet (m : List (String × Nat)) (k : String) (v : Nat) : List (String × Nat) :=
  match m with
  | [] => [(k, v)]
  | e :: rest => if e.1 == k then (k, v) :: rest else e :: mapSet rest k v

/-- `GameState.isGameOver`: a result is present with outcome ≠ "ongoing". -/
def GameState.isGameOver (st : GameState) : Bool :=
  match st.result with
  | none => false
  | some r => r.outcome ≠ "ongoing"

/-- `GameState.asRulesState`. -/
def GameState.asRulesState (st : GameState) : RulesState :=
  { board := st.board, activeColor := st.activeColor,
    castlingRights := st.castlingRights, enPassantTarget := st.enPassantTarget }

/-- `GameState.buildRepetitionKey`: board placement (`join(",")`, JS renders
`null` as the empty string), active color, castling-rights letters, and the
en-passant square or "-". -/
def GameState.buildRepetitionKey (st : GameState) : String :=
  let boardPart := String.intercalate ","
    (st.board.map fun p => match p with
      | some pc => pieceCode pc
      | none => "")
  let active := colorString st.activeColor
  let cr := st.castlingRights
  let crPart :=
    (if cr.white.kingSide then "K" else "")
    ++ (if cr.white.queenSide then "Q" else "")
    ++ (if cr.black.kingSide then "k" else "")
    ++ (if cr.black.queenSide then "q" else "")
  let ep := match st.enPassantTarget with
    | some n => indexToAlgebraic n
    | none => "-"
  boardPart ++ "|" ++ active ++ "|" ++ crPart ++ "|" ++ ep

/-- `GameState.recordRepetitionKey`: bump this position's count. -/
def GameState.recordRepetitionKey (st : GameState) : GameState :=
  let key := st.buildRepetitionKey
  let prev := (mapGet st.repetitionMap key).getD 0
  { st with repetitionMap := mapSet st.repetitionMap key (prev + 1) }

/-- `GameState.hasThreefoldRepetition`: any stored count ≥ 3. -/
def GameState.hasThreefoldRepetition (st : GameState) : Bool :=
  st.repetitionMap.any fun e => decide (3 ≤ e.2)

/-- The non-king piece collection loop at the top of
`GameState.isInsufficientMaterial` (skip empty slots and kings). -/
def nonKingPieces (board : Board) : List Piece :=
  board.filterMap fun slot =>
    match slot with
    | none => none
    | some p => if p.ptype = .K then none else some p

/-- `GameState.isInsufficientMaterial`.  The source collects the non-king
pieces then tests `length === 0` (true), `length === 1` with a bishop or
knight (true), `length === 2` with two bishops (true), else false; the match
below is that case split. -/
def GameState.isInsufficientMaterial (st : GameState) : Bool :=
  let pieces := nonKingPieces st.board
  match pieces with
  | [] => true
  | [p] => p.ptype = .B || p.ptype = .N
  | [a, b] => a.ptype = .B && b.ptype = .B
  | _ => false

/-- `GameState.updateCastlingRights` (reads the post-move board for the
rook-presence normalization; the corner squares h1/a1/h8/a8 are indices
7/0/63/56). -/
def updateCastlingRights (board : Board) (castlingRights : CastlingRights) (move : Move)
    (movingPiece : Piece) : CastlingRights :=
  let cr := castlingRights
  let cr := if movingPiece = ⟨.white, .K⟩ then
      { cr with white := ⟨false, false⟩ } else cr
  let cr := if movingPiece = ⟨.black, .K⟩ then
      { cr with black := ⟨false, false⟩ } else cr
  let fromSq := move.fromSq
  let toSq := move.toSq
  let cr := if fromSq = 7 ∨ toSq = 7 then
      { cr with white := { cr.white with kingSide := false } } else cr
  let cr := if fromSq = 0 ∨ toSq = 0 then
      { cr with white := { cr.white with queenSide := false } } else cr
  let cr := if fromSq = 63 ∨ toSq = 63 then
      { cr with black := { cr.black with kingSide := false } } else cr
  let cr := if fromSq = 56 ∨ toSq = 56 then
      { cr with black := { cr.black with queenSide := false } } else cr
  let cr := if boardGet board 7 ≠ some ⟨.white, .R⟩ then
      { cr with white := { cr.white with kingSide := false } } else cr
  let cr := if boardGet board 0 ≠ some ⟨.white, .R⟩ then
      { cr with white := { cr.white with queenSide := false } } else cr
  let cr := if boardGet board 63 ≠ some ⟨.black, .R⟩ then
      { cr with black := { cr.black with kingSide := false } } else cr
  let cr := if boardGet board 56 ≠ some ⟨.black, .R⟩ then
      { cr with black := { cr.black with queenSide := false } } else cr
  cr

/-- `GameState.applyMoveInternalForSAN`: lightweight re-application of the
move for the check/mate suffix.  It is invoked on a clone of the state after
`applyMove` has already moved the piece, so its own `board[fromIndex]` read
yields `null`; the JS null-comparisons (`color === "white"`, `oppositeColor`
on `null`) are mirrored on the `Option Color`. -/
def GameState.applyMoveInternalForSAN (st : GameState) (move : Move) : GameState :=
  let fromIndex := move.fromSq
  let toIndex := move.toSq
  let movingPiece := boardGet st.board fromIndex
  let color := getColorOf movingPiece
  let board := st.board.set fromIndex none
  let board :=
    if move.isEnPassant then
      let dir : Int := if color = some .white then -1 else 1
      let file : Int := toIndex % 8
      let rank : Int := toIndex / 8
      boardSetI board ((rank + dir) * 8 + file) none
    else board
  let board :=
    if move.isCastleKingSide || move.isCastleQueenSide then
      let rank : Nat := if color = some .white then 0 else 7
      if move.isCastleKingSide then
        let rookFrom := rank * 8 + 7
        let rookTo := rank * 8 + 5
        (board.set rookTo (boardGet board rookFrom)).set rookFrom none
      else
        let rookFrom := rank * 8 + 0
        let rookTo := rank * 8 + 3
        (board.set rookTo (boardGet board rookFrom)).set rookFrom none
    else board
  let board :=
    match move.promotion with
    | some promo =>
      let pfx : Color := if color = some .white then .white else .black
      board.set toIndex (some ⟨pfx, promo⟩)
    | none => board.set toIndex movingPiece
  { st with
    board := board
    activeColor := if color = some .white then .black else .white }

/-- The one-letter name of a piece type in SAN text. -/
def pieceTypeChar (t : PieceType) : String :=
  match t with
  | .P => "P"
  | .N => "N"
  | .B => "B"
  | .R => "R"
  | .Q => "Q"
  | .K => "K"

/-- `GameState.toSimpleSAN`: castle names or piece letter/pawn capture file,
capture marker, destination, promotion marker, then a check/mate suffix
computed by re-applying the move to a clone of the (already updated) state. -/
def GameState.toSimpleSAN (st : GameState) (move : Move) (movingPiece : Piece)
    (isCapture : Bool) : String :=
  let pieceType := movingPiece.ptype
  let toStr := indexToAlgebraic move.toSq
  let san :=
    if move.isCastleKingSide then "O-O"
    else if move.isCastleQueenSide then "O-O-O"
    else
      let s :=
        if pieceType ≠ .P then pieceTypeChar pieceType
        else if isCapture then String.mk [Char.ofNat (97 + move.fromSq % 8)]
        else ""
      let s := s ++ (if isCapture then "x" else "")
      let s := s ++ toStr
      match move.promotion with
      | some p => s ++ "=" ++ pieceTypeChar p
      | none => s
  let tmp := st.applyMoveInternalForSAN move
  let analyzed := analyzePosition tmp.asRulesState
  if analyzed.2 && !analyzed.1 then san ++ "#"
  else if analyzed.2 then san ++ "+"
  else san

/-- `GameState.updateResult`: terminal results are kept; otherwise checkmate
/ stalemate from {hasLegalMoves, isCheck}, then the draw cascade (fifty-move,
threefold repetition, insufficient material), else ongoing. -/
def GameState.updateResult (st : GameState) : GameState :=
  if st.isGameOver then st
  else
    let analyzed := analyzePosition st.asRulesState
    let hasLegalMoves := analyzed.1
    let isCheckB := analyzed.2
    if !hasLegalMoves then
      if isCheckB then
        { st with result := some ⟨"checkmate", some (oppositeColor st.activeColor), some "Checkmate"⟩ }
      else
        { st with result := some ⟨"stalemate", none, some "Stalemate"⟩ }
    else if 100 ≤ st.halfmoveClock then
      { st with result := some ⟨"draw", none, some "50-move rule"⟩ }
    else if st.hasThreefoldRepetition then
      { st with result := some ⟨"draw", none, some "Threefold repetition"⟩ }
    else if st.isInsufficientMaterial then
      { st with result := some ⟨"draw", none, some "Insufficient material"⟩ }
    else
      { st with result := some ⟨"ongoing", none, none⟩ }

/-- `GameState.updateStatusText`. -/
def GameState.updateStatusText (st : GameState) : GameState :=
  let ongoingText :=
    let colorText := if st.activeColor = .white then "White" else "Black"
    let perspective :=
      if st.activeColor = st.playerColor then "Your move" else "Computer's move"
    colorText ++ " to move. " ++ perspective ++ "."
  match st.result with
  | none => { st with statusText := ongoingText }
  | some r =>
    if r.outcome = "ongoing" then { st with statusText := ongoingText }
    else if r.outcome = "checkmate" then
      let winner := if r.winner = some .white then "White" else "Black"
      let youWin :=
        if r.winner = some st.playerColor then "You win." else "Computer wins."
      { st with statusText := "Checkmate. " ++ winner ++ " wins. " ++ youWin }
    else if r.outcome = "stalemate" then
      { st with statusText := "Draw by stalemate." }
    else if r.outcome = "draw" then
      { st with statusText := "Draw: " ++ (r.reason.getD "by agreement") ++ "." }
    else
      { st with statusText := "" }

/-- The state-transition body of `GameState.applyMove` up to (and including)
repetition recording: clocks, en-passant bookkeeping, piece placement,
castling rights, turn flip, notation, repetition key.  A move whose origin
square is empty violates the documented legality precondition (the source
would throw inside `toSimpleSAN`) and is modelled as a no-op. -/
def GameState.applyMoveCore (st : GameState) (move : Move) : GameState :=
  match boardGet st.board move.fromSq with
  | none => st
  | some movingPiece =>
    let fromIndex := move.fromSq
    let toIndex := move.toSq
    let color := movingPiece.color
    let enemy := oppositeColor color
    let isPawn := movingPiece.ptype = .P
    let isCapture := move.captured.isSome || move.isEnPassant
    let halfmoveClock := if isPawn || isCapture then 0 else st.halfmoveClock + 1
    let board := st.board.set fromIndex none
    let board :=
      if move.isEnPassant then
        let dir : Int := if color = .white then -1 else 1
        let file : Int := toIndex % 8
        let rank : Int := toIndex / 8
        boardSetI board ((rank + dir) * 8 + file) none
      else board
    let board :=
      if move.isCastleKingSide || move.isCastleQueenSide then
        let rank : Nat := if color = .white then 0 else 7
        if move.isCastleKingSide then
          let rookFrom := rank * 8 + 7
          let rookTo := rank * 8 + 5
          (board.set rookTo (boardGet board rookFrom)).set rookFrom none
        else
          let rookFrom := rank * 8 + 0
          let rookTo := rank * 8 + 3
          (board.set rookTo (boardGet board rookFrom)).set rookFrom none
      else board
    let board :=
      match move.promotion with
      | some promo => board.set toIndex (some ⟨color, promo⟩)
      | none => board.set toIndex (some movingPiece)
    let enPassantTarget : Option Nat :=
      if isPawn then
        let fromRank : Int := fromIndex / 8
        let toRank : Int := toIndex / 8
        if (toRank - fromRank).natAbs = 2 then
          let epRank := (fromRank + toRank) / 2
          let file : Int := toIndex % 8
          some (epRank * 8 + file).toNat
        else none
      else none
    let castlingRights := updateCastlingRights board st.castlingRights move movingPiece
    let fullmoveNumber := if color = .black then st.fullmoveNumber + 1 else st.fullmoveNumber
    let stMid : GameState :=
      { st with
        board := board
        activeColor := enemy
        castlingRights := castlingRights
        enPassantTarget := enPassantTarget
        halfmoveClock := halfmoveClock
        fullmoveNumber := fullmoveNumber
        lastMove := some (move.fromSq, move.toSq) }
    let san := stMid.toSimpleSAN move movingPiece isCapture
    let st2 :=
      { stMid with
        moveHistory := st.moveHistory ++ [san]
        lastMoveText := some (toString fullmoveNumber ++ ". " ++ san) }
    st2.recordRepetitionKey

/-- `GameState.applyMove`: no-op once the game is over, otherwise the
transition body followed by result and status recomputation. -/
def GameState.applyMove (st : GameState) (move : Move) : GameState :=
  if st.isGameOver then st
  else ((st.applyMoveCore move).updateResult).updateStatusText

/-- The record returned by `GameState.handleSelection`. -/
structure SelectionResult where
  moved : Bool
  selectedSquare : Option Nat
  legalTargets : List Nat
deriving DecidableEq, Repr, Inhabited

/-- `GameState.handleSelection`: click-driven selection state machine. -/
def GameState.handleSelection (st : GameState) (square : Nat) (side : Color) :
    GameState × SelectionResult :=
  if st.isGameOver then (st, ⟨false, none, []⟩)
  else if side ≠ st.activeColor then
    (st, ⟨false, st.selectedSquare, st.cachedLegalTargets⟩)
  else
    let piece := boardGet st.board square
    let pieceColor := getColorOf piece
    if piece.isSome && pieceColor = some side then
      let allLegal := generateLegalMoves st.asRulesState
      let targets := (allLegal.filter fun m => m.fromSq == square).map fun m => m.toSq
      ({ st with selectedSquare := some square, cachedLegalTargets := targets },
        ⟨false, some square, targets⟩)
    else
      match st.selectedSquare with
      | some fromSq =>
        let allLegal := generateLegalMoves st.asRulesState
        match allLegal.find? fun m => m.fromSq == fromSq && m.toSq == square with
        | some move =>
          let st := st.applyMove move
          ({ st with selectedSquare := none, cachedLegalTargets := [] }, ⟨true, none, []⟩)
        | none =>
          ({ st with selectedSquare := none, cachedLegalTargets := [] }, ⟨false, none, []⟩)
      | none => (st, ⟨false, st.selectedSquare, st.cachedLegalTargets⟩)

/-- The object produced by `GameState.serialize` (the repetition map as its
explicit ordered entry list, `Array.from(map.entries())`). -/
structure SerializedState where
  board : Board
  activeColor : Color
  playerColor : Color
  castlingRights : CastlingRights
  enPassantTarget : Option Nat
  halfmoveClock : Nat
  fullmoveNumber : Nat
  moveHistory : List String
  result : Option GameResult
  lastMove : Option (Nat × Nat)
  repetitionMap : List (String × Nat)
deriving DecidableEq, Repr, Inhabited

/-- `GameState.serialize`. -/
def GameState.serialize (st : GameState) : SerializedState :=
  { board := st.board, activeColor := st.activeColor, playerColor := st.playerColor,
    castlingRights := st.castlingRights, enPassantTarget := st.enPassantTarget,
    halfmoveClock := st.halfmoveClock, fullmoveNumber := st.fullmoveNumber,
    moveHistory := st.moveHistory, result := st.result, lastMove := st.lastMove,
    repetitionMap := st.repetitionMap }

/-- The `GameState` constructor rehydrating serialized data.  JS `||`
defaults are mirrored where a field value can be falsy: `fullmoveNumber || 1`
maps 0 to 1; `halfmoveClock || 0` is the identity on naturals; color strings,
arrays and objects are truthy and pass through.  The repetition map is
rebuilt by `Map.set` over the ordered entry list.  `statusText` and
`lastMoveText` are left unset by the source (modelled `""` / `none`). -/
def GameState.rehydrate (data : SerializedState) : GameState :=
  { board := data.board,
    activeColor := data.activeColor,
    playerColor := data.playerColor,
    castlingRights := data.castlingRights,
    enPassantTarget := data.enPassantTarget,
    halfmoveClock := data.halfmoveClock,
    fullmoveNumber := if data.fullmoveNumber = 0 then 1 else data.fullmoveNumber,
    moveHistory := data.moveHistory,
    result := data.result,
    lastMove := data.lastMove,
    repetitionMap := data.repetitionMap.foldl (fun m e => mapSet m e.1 e.2) [],
    selectedSquare := none,
    cachedLegalTargets := [],
    statusText := "",
    lastMoveText := none }

/-!  Evaluator.js  -/

/-- Evaluator.js / AI.js `PIECE_VALUES` (centipawns). -/
def PIECE_VALUES (t : PieceType) : Int :=
  match t with
  | .P => 100
  | .N => 320
  | .B => 330
  | .R => 500
  | .Q => 900
  | .K => 0

/-- Evaluator.js `PST_PAWN`. -/
def PST_PAWN : List Int :=
  [ 0,  0,  0,  0,  0,  0,  0,  0,
   40, 50, 50, 60, 60, 50, 50, 40,
   10, 10, 20, 35, 35, 20, 10, 10,
    5,  5, 10, 25, 25, 10,  5,  5,
    0,  0,  5, 20, 20,  5,  0,  0,
    5, -5,-10,  0,  0,-10, -5,  5,
    5, 10, 10,-20,-20, 10, 10,  5,
    0,  0,  0,  0,  0,  0,  0,  0]

/-- Evaluator.js `PST_KNIGHT`. -/
def PST_KNIGHT : List Int :=
  [-50,-40,-30,-30,-30,-30,-40,-50,
   -40,-20,  0,  0,  0,  0,-20,-40,
   -30,  0, 10, 15, 15, 10,  0,-30,
   -30,  5, 15, 20, 20, 15,  5,-30,
   -30,  0, 15, 20, 20, 15,  0,-30,
   -30,  5, 10, 15, 15, 10,  5,-30,
   -40,-20,  0,  5,  5,  0,-20,-40,
   -50,-40,-30,-30,-30,-30,-40,-50]

/-- Evaluator.js `PST_BISHOP`. -/
def PST_BISHOP : List Int :=
  [-20,-10,-10,-10,-10,-10,-10,-20,
   -10,  5,  0,  0,  0,  0,  5,-10,
   -10, 10, 10, 10, 10, 10, 10,-10,
   -10,  0, 10, 10, 10, 10,  0,-10,
   -10,  5,  5, 10, 10,  5,  5,-10,
   -10,  0,  5, 10, 10,  5,  0,-10,
   -10,  0,  0,  0,  0,  0,  0,-10,
   -20,-10,-10,-10,-10,-10,-10,-20]

/-- Evaluator.js `PST_ROOK`. -/
def PST_ROOK : List Int :=
  [ 0,  0,  5, 10, 10,  5,  0,  0,
   -5,  0,  0,  0,  0,  0,  0, -5,
   -5,  0,  0,  0,  0,  0,  0, -5,
   -5,  0,  0,  0,  0,  0,  0, -5,
   -5,  0,  0,  0,  0,  0,  0, -5,
   -5,  0,  0,  0,  0,  0,  0, -5,
    5, 10, 10, 10, 10, 10, 10,  5,
    0,  0,  0,  0,  0,  0,  0,  0]

/-- Evaluator.js `PST_QUEEN`. -/
def PST_QUEEN : List Int :=
  [-20,-10,-10, -5, -5,-10,-10,-20,
   -10,  0,  5,  0,  0,  0,  0,-10,
   -10,  5,  5,  5,  5,  5,  0,-10,
    -5,  0,  5,  5,  5,  5,  0, -5,
     0,  0,  5,  5,  5,  5,  0, -5,
   -10,  5,  5,  5,  5,  5,  0,-10,
   -10,  0,  5,  0,  0,  0,  0,-10,
   -20,-10,-10, -5, -5,-10,-10,-20]

/-- Evaluator.js `PST_KING`. -/
def PST_KING : List Int :=
  [-30,-40,-40,-50,-50,-40,-40,-30,
   -30,-40,-40,-50,-50,-40,-40,-30,
   -30,-40,-40,-50,-50,-40,-40,-30,
   -30,-40,-40,-50,-50,-40,-40,-30,
   -20,-30,-30,-40,-40,-30,-30,-20,
   -10,-20,-20,-20,-20,-20,-20,-10,
    20, 20,  0,  0,  0,  0, 20, 20,
    20, 30, 10,  0,  0, 10, 30, 20]

/-- Evaluator.js `pstIndex`: white reads the table directly, black mirrors the
rank so one white-oriented table serves both colors. -/
def pstIndex (index : Nat) (color : Color) : Nat :=
  if color = .white then index
  else
    let file := index % 8
    let rank := index / 8
    let mirroredRank := 7 - rank
    mirroredRank * 8 + file

/-- One slot's term of `evaluate`'s accumulation: material value plus the
piece-square bonus, added for the requested color's pieces and subtracted for
the opponent's. -/
def pieceContribution (board : Board) (color : Color) (i : Nat) : Int :=
  match boardGet board i with
  | none => 0
  | some piece =>
    let base := PIECE_VALUES piece.ptype
    let pst :=
      match piece.ptype with
      | .P => PST_PAWN.getD (pstIndex i piece.color) 0
      | .N => PST_KNIGHT.getD (pstIndex i piece.color) 0
      | .B => PST_BISHOP.getD (pstIndex i piece.color) 0
      | .R => PST_ROOK.getD (pstIndex i piece.color) 0
      | .Q => PST_QUEEN.getD (pstIndex i piece.color) 0
      | .K => PST_KING.getD (pstIndex i piece.color) 0
    let pieceScore := base + pst
    if piece.color = color then pieceScore else -pieceScore

/-- Evaluator.js `evaluate`: the source's `score +=` loop over slots 0..63 is
this sum.  (The mobility block at the end of the source function is commented
out there and therefore absent here.) -/
def evaluate (board : Board) (color : Color) : Int :=
  ((List.range 64).map (pieceContribution board color)).sum

/-!  AI.js  -/

/-- JS numbers as the search uses them: finite scores together with the
`-Infinity` / `Infinity` initial bounds.  No NaN can arise on the embedded
paths (see the quiescence negation note below, where `-null` is `-0`). -/
inductive ExtInt where
  | negInf
  | fin (n : Int)
  | posInf
deriving DecidableEq, Repr, Inhabited

/-- JS `<` on scores. -/
def ExtInt.lt : ExtInt → ExtInt → Bool
  | .negInf, .negInf => false
  | .negInf, _ => true
  | .fin _, .negInf => false
  | .fin a, .fin b => decide (a < b)
  | .fin _, .posInf => true
  | .posInf, _ => false

/-- JS `>` on scores. -/
def ExtInt.gt (a b : ExtInt) : Bool :=
  ExtInt.lt b a

/-- JS `>=` on scores. -/
def ExtInt.ge (a b : ExtInt) : Bool :=
  !(ExtInt.lt a b)

/-- JS `<=` on scores. -/
def ExtInt.le (a b : ExtInt) : Bool :=
  !(ExtInt.lt b a)

/-- JS unary minus on scores. -/
def ExtInt.neg : ExtInt → ExtInt
  | .negInf => .posInf
  | .fin n => .fin (-n)
  | .posInf => .negInf

/-- The ambient effects the search samples: `Date.now() − startTime ≥ timeout`
polls and `Math.random()` draws, indexed by a consultation counter threaded
through the search.  Theorems quantify over all oracles, so every wall-clock
and randomness behavior of the source is covered. -/
structure Oracle where
  timedOut : Nat → Bool
  rand : Nat → Nat

/-- One `timeout && startTime && Date.now() − startTime ≥ timeout` poll:
consulting the clock advances the counter; with no deadline wired
(`timeout`/`startTime` falsy) the short-circuit skips the clock. -/
def checkClock (deadline : Bool) (o : Oracle) (t : Nat) : Bool × Nat :=
  if deadline then (o.timedOut t, t + 1) else (false, t)

/-- AI.js `SearchState`: the minimal mutable copy taken per search node.
(The `generateLegalMoveCount` mobility callback is omitted: its only consumer
is the commented-out mobility block in Evaluator.js.) -/
structure SearchState where
  board : Board
  activeColor : Color
  castlingRights : CastlingRights
  enPassantTarget : Option Nat
  halfmoveClock : Nat
  fullmoveNumber : Nat
deriving DecidableEq, Repr, Inhabited

/-- A `SearchState` is consumed by Rules.js directly (duck typing in the
source); this is that field projection. -/
def SearchState.toRulesState (st : SearchState) : RulesState :=
  { board := st.board, activeColor := st.activeColor,
    castlingRights := st.castlingRights, enPassantTarget := st.enPassantTarget }

/-- `new SearchState(gameState)` at the top of `findBestMove`. -/
def SearchState.ofGameState (gs : GameState) : SearchState :=
  { board := gs.board, activeColor := gs.activeColor,
    castlingRights := gs.castlingRights, enPassantTarget := gs.enPassantTarget,
    halfmoveClock := gs.halfmoveClock, fullmoveNumber := gs.fullmoveNumber }

/-- AI.js `updateCastlingRightsSearch` (no rook-presence normalization,
unlike the GameState version). -/
def updateCastlingRightsSearch (cr : CastlingRights) (move : Move)
    (movingPiece : Option Piece) : CastlingRights :=
  let cr :=
    if movingPiece = some ⟨.white, .K⟩ then { cr with white := ⟨false, false⟩ }
    else if movingPiece = some ⟨.black, .K⟩ then { cr with black := ⟨false, false⟩ }
    else cr
  let fromSq := move.fromSq
  let toSq := move.toSq
  let cr := if fromSq = 7 ∨ toSq = 7 then
      { cr with white := { cr.white with kingSide := false } } else cr
  let cr := if fromSq = 0 ∨ toSq = 0 then
      { cr with white := { cr.white with queenSide := false } } else cr
  let cr := if fromSq = 63 ∨ toSq = 63 then
      { cr with black := { cr.black with kingSide := false } } else cr
  let cr := if fromSq = 56 ∨ toSq = 56 then
      { cr with black := { cr.black with queenSide := false } } else cr
  cr

/-- AI.js `applyMoveSearch`: the lighter move application used inside search
(clock, en-passant bookkeeping, placement, simplified castling rights, turn
flip). -/
def applyMoveSearch (state : SearchState) (move : Move) (mover : Color) : SearchState :=
  let fromIndex := move.fromSq
  let toIndex := move.toSq
  let movingPiece := boardGet state.board fromIndex
  let enemy := oppositeColor mover
  let isPawn := match movingPiece with
    | some p => p.ptype = .P
    | none => false
  let isCapture := move.captured.isSome || move.isEnPassant
  let halfmoveClock := if isPawn || isCapture then 0 else state.halfmoveClock + 1
  let board := state.board.set fromIndex none
  let board :=
    if move.isEnPassant then
      let dir : Int := if mover = .white then -1 else 1
      let tf : Int := toIndex % 8
      let tr : Int := toIndex / 8
      boardSetI board ((tr + dir) * 8 + tf) none
    else board
  let board :=
    if move.isCastleKingSide || move.isCastleQueenSide then
      let rank : Nat := if mover = .white then 0 else 7
      if move.isCastleKingSide then
        let rookFrom := rank * 8 + 7
        let rookTo := rank * 8 + 5
        (board.set rookTo (boardGet board rookFrom)).set rookFrom none
      else
        let rookFrom := rank * 8 + 0
        let rookTo := rank * 8 + 3
        (board.set rookTo (boardGet board rookFrom)).set rookFrom none
    else board
  let board :=
    match move.promotion with
    | some promo => board.set toIndex (some ⟨mover, promo⟩)
    | none => board.set toIndex movingPiece
  let enPassantTarget : Option Nat :=
    if isPawn then
      let fromRank : Int := fromIndex / 8
      let toRank : Int := toIndex / 8
      if (toRank - fromRank).natAbs = 2 then
        let midRank := (fromRank + toRank) / 2
        let file : Int := toIndex % 8
        some (midRank * 8 + file).toNat
      else none
    else none
  let castlingRights := updateCastlingRightsSearch state.castlingRights move movingPiece
  { board := board, activeColor := enemy, castlingRights := castlingRights,
    enPassantTarget := enPassantTarget, halfmoveClock := halfmoveClock,
    fullmoveNumber := if mover = .black then state.fullmoveNumber + 1 else state.fullmoveNumber }

/-- AI.js `pieceValueApprox`: the source reads the final character of the
code — the piece type — for both captured piece codes ("bQ") and promotion
letters ("Q"). -/
def pieceValueApprox (t : PieceType) : Int :=
  PIECE_VALUES t

/-- The `this.randomness` table (JS floats 0.4/0.25/0.15/0.08/0.05 as exact
rationals; `this.randomness[level] || 0` is 0 off the table). -/
def randomness (level : Int) : Rat :=
  if level = 1 then 2/5
  else if level = 2 then 1/4
  else if level = 3 then 3/20
  else if level = 4 then 2/25
  else if level = 5 then 1/20
  else 0

/-- The `this.depthForLevel` table (only consulted at clamped levels 1..5). -/
def depthForLevel (level : Int) : Nat :=
  if level = 1 then 1
  else if level = 2 then 2
  else if level = 3 then 3
  else if level = 4 then 3
  else if level = 5 then 4
  else 0

/-- The capture loop of AI.js `quiescence`, parameterized by the recursive
call (`child`).  `i % 5 === 0` iterations poll the clock and return the best
value so far on timeout.  JS computes `const score = -this.quiescence(...)`:
unary minus coerces the `null` sentinel to `-0`, so a timeout inside the
recursive call arrives here as the real score 0, and the subsequent
`score === null` check in the source can never fire. -/
def qLoop (o : Oracle) (deadline : Bool) (st : SearchState) (rootColor : Color)
    (child : SearchState → ExtInt → ExtInt → ExtInt → Nat → Option ExtInt × Nat) :
    List Move → Nat → ExtInt → ExtInt → ExtInt → Nat → Option ExtInt × Nat
  | [], _, value, _, _, t => (some value, t)
  | m :: rest, i, value, alpha, beta, t =>
    let consulted := deadline && i % 5 == 0
    let tNew := if consulted then t + 1 else t
    if consulted && o.timedOut t then (some value, tNew)
    else
      let next := applyMoveSearch st m st.activeColor
      let res := child next beta.neg alpha.neg (.fin (evaluate next.board rootColor)) tNew
      let score : ExtInt :=
        match res.1 with
        | none => .fin 0
        | some v => v.neg
      let value := if score.gt value then score else value
      let alpha := if value.gt alpha then value else alpha
      if alpha.ge beta then (some value, res.2)
      else qLoop o deadline st rootColor child rest (i + 1) value alpha beta res.2

/-- AI.js `quiescence`: sentinel on an entry-poll timeout, stand-pat update
of alpha (early cutoff), then the capped capture loop.  The source's
recursion terminates because every recursive call consumes a capture; the
structural fuel (65 at every call site) exceeds any capture chain on a
64-slot board, so the fuel-0 stub child is unreachable. -/
def quiescence (o : Oracle) (deadline : Bool) (rootColor : Color) :
    Nat → SearchState → ExtInt → ExtInt → ExtInt → Nat → Option ExtInt × Nat
  | fuel, st, alpha, beta, standPat, t =>
    let c := checkClock deadline o t
    if c.1 then (none, c.2)
    else
      let t := c.2
      let value := standPat
      let alpha2 := if value.gt alpha then value else alpha
      if value.gt alpha && alpha2.ge beta then (some alpha2, t)
      else
        let allMoves := generateLegalMoves st.toRulesState
        let captureMoves := allMoves.filter fun m => m.captured.isSome
        let limited := captureMoves.take 16
        let child :=
          match fuel with
          | 0 => fun _ _ _ _ t2 => ((none : Option ExtInt), t2)
          | f + 1 => quiescence o deadline rootColor f
        qLoop o deadline st rootColor child limited 0 value alpha2 beta t

/-- Move-ordering key of `minimax` (captures and promotions first). -/
def minimaxOrderScore (m : Move) : Int :=
  (match m.captured with
    | some c => pieceValueApprox c.ptype
    | none => 0)
  + (match m.promotion with
    | some p => pieceValueApprox p
    | none => 0)

/-- The maximizing loop of AI.js `minimax`, parameterized by the recursive
call.  Every tenth iteration polls the clock and signals timeout with the
sentinel; a sentinel from the child is propagated unchanged. -/
def minimaxLoopMax (o : Oracle) (deadline : Bool) (st : SearchState)
    (child : SearchState → ExtInt → ExtInt → Nat → Option ExtInt × Nat) :
    List Move → Nat → ExtInt → ExtInt → ExtInt → Nat → Option ExtInt × Nat
  | [], _, value, _, _, t => (some value, t)
  | m :: rest, i, value, alpha, beta, t =>
    let consulted := deadline && i % 10 == 0
    let tNew := if consulted then t + 1 else t
    if consulted && o.timedOut t then (none, tNew)
    else
      let next := applyMoveSearch st m st.activeColor
      let res := child next alpha beta tNew
      match res.1 with
      | none => (none, res.2)
      | some childV =>
        let value := if childV.gt value then childV else value
        let alpha := if value.gt alpha then value else alpha
        if alpha.ge beta then (some value, res.2)
        else minimaxLoopMax o deadline st child rest (i + 1) value alpha beta res.2

/-- The minimizing loop of AI.js `minimax` (mirror of `minimaxLoopMax`). -/
def minimaxLoopMin (o : Oracle) (deadline : Bool) (st : SearchState)
    (child : SearchState → ExtInt → ExtInt → Nat → Option ExtInt × Nat) :
    List Move → Nat → ExtInt → ExtInt → ExtInt → Nat → Option ExtInt × Nat
  | [], _, value, _, _, t => (some value, t)
  | m :: rest, i, value, alpha, beta, t =>
    let consulted := deadline && i % 10 == 0
    let tNew := if consulted then t + 1 else t
    if consulted && o.timedOut t then (none, tNew)
    else
      let next := applyMoveSearch st m st.activeColor
      let res := child next alpha beta tNew
      match res.1 with
      | none => (none, res.2)
      | some childV =>
        let value := if childV.lt value then childV else value
        let beta := if value.lt beta then value else beta
        if alpha.ge beta then (some value, res.2)
        else minimaxLoopMin o deadline st child rest (i + 1) value alpha beta res.2

/-- AI.js `minimax`: entry clock poll (sentinel on timeout); at depth 0 or
with no legal moves, static/mate/stalemate leaf score with quiescence
extension at levels ≥ 4 (a quiescence sentinel is absorbed as the stand-pat
score); otherwise the ordered alpha-beta loops.  The source evaluates
`baseScore` and overwrites it in the no-legal-moves case; the conditional
below computes the same value. -/
def minimax (o : Oracle) (deadline : Bool) (level : Int) (rootColor : Color) :
    Nat → SearchState → ExtInt → ExtInt → Bool → Nat → Option ExtInt × Nat
  | depth, st, alpha, beta, isMaximizing, t =>
    let c := checkClock deadline o t
    if c.1 then (none, c.2)
    else
      let t := c.2
      let legalMoves := generateLegalMoves st.toRulesState
      if depth = 0 || legalMoves.isEmpty then
        let baseScore : Int :=
          if legalMoves.isEmpty then
            if isInCheck st.toRulesState none then
              if st.activeColor = rootColor then -100000 else 100000
            else 0
          else evaluate st.board rootColor
        if depth = 0 && decide (4 ≤ level) then
          let q := quiescence o deadline rootColor 65 st alpha beta (.fin baseScore) t
          match q.1 with
          | none => (some (.fin baseScore), q.2)
          | some v => (some v, q.2)
        else (some (.fin baseScore), t)
      else
        let ordered := legalMoves.mergeSort fun a b =>
          decide (minimaxOrderScore b ≤ minimaxOrderScore a)
        match depth with
        | 0 => (some (.fin 0), t)
        | d + 1 =>
          if isMaximizing then
            minimaxLoopMax o deadline st
              (fun st2 a b t2 => minimax o deadline level rootColor d st2 a b false t2)
              ordered 0 .negInf alpha beta t
          else
            minimaxLoopMin o deadline st
              (fun st2 a b t2 => minimax o deadline level rootColor d st2 a b true t2)
              ordered 0 .posInf alpha beta t

/-- Move-ordering key of `searchRoot` (captures first). -/
def rootOrderScore (m : Move) : Int :=
  match m.captured with
  | some c => pieceValueApprox c.ptype
  | none => 0

/-- The main loop of AI.js `searchRoot`: per-move clock poll (keep the best
so far on timeout), child `minimax` at `depth − 1`, sentinel stops the loop,
otherwise best-move/score and alpha-beta updates with the `beta <= alpha`
cutoff. -/
def searchRootLoop (o : Oracle) (deadline : Bool) (level : Int) (color : Color)
    (st : SearchState) (depthMinus1 : Nat) (isMaximizing : Bool) :
    List Move → Option Move → ExtInt → ExtInt → ExtInt → Nat →
      Option Move × ExtInt × Nat
  | [], bestMove, bestScore, _, _, t => (bestMove, bestScore, t)
  | m :: rest, bestMove, bestScore, alpha, beta, t =>
    let c := checkClock deadline o t
    if c.1 then (bestMove, bestScore, c.2)
    else
      let next := applyMoveSearch st m st.activeColor
      let res := minimax o deadline level color depthMinus1 next alpha beta (!isMaximizing) c.2
      match res.1 with
      | none => (bestMove, bestScore, res.2)
      | some score =>
        if isMaximizing then
          let bestMove := if score.gt bestScore then some m else bestMove
          let bestScore := if score.gt bestScore then score else bestScore
          let alpha := if score.gt alpha then score else alpha
          if beta.le alpha then (bestMove, bestScore, res.2)
          else searchRootLoop o deadline level color st depthMinus1 isMaximizing rest
            bestMove bestScore alpha beta res.2
        else
          let bestMove := if score.lt bestScore then some m else bestMove
          let bestScore := if score.lt bestScore then score else bestScore
          let beta := if score.lt beta then score else beta
          if beta.le alpha then (bestMove, bestScore, res.2)
          else searchRootLoop o deadline level color st depthMinus1 isMaximizing rest
            bestMove bestScore alpha beta res.2

/-- `Math.abs(score − bestScore)` in the jitter band test: the 1-ply score is
always finite, so the difference against an infinite best is `Infinity`. -/
def jitterDelta (score : Int) (bestScore : ExtInt) : ExtInt :=
  match bestScore with
  | .fin b => .fin ((score - b).natAbs : Int)
  | _ => .posInf

/-- The jitter candidate loop of `searchRoot`: per-move clock poll (keep the
candidates gathered so far on timeout); a move joins the band when its 1-ply
static score is within `PIECE_VALUES.P * jitter * 2` of the best score. -/
def candidatesLoop (o : Oracle) (deadline : Bool) (st : SearchState) (color : Color)
    (bestScore : ExtInt) (jitter : Rat) :
    List Move → List Move → Nat → List Move × Nat
  | [], acc, t => (acc, t)
  | m :: rest, acc, t =>
    let c := checkClock deadline o t
    if c.1 then (acc, c.2)
    else
      let next := applyMoveSearch st m st.activeColor
      let score := evaluate next.board color
      let keep :=
        match jitterDelta score bestScore with
        | .fin d => decide ((d : Rat) ≤ 100 * jitter * 2)
        | .posInf => false
        | .negInf => true
      candidatesLoop o deadline st color bestScore jitter rest
        (if keep then acc ++ [m] else acc) c.2

/-- AI.js `searchRoot`: capture-first ordering, the alpha-beta root loop
seeded with `ordered[0]` (`none` when the move list is empty, as the JS
`undefined`), then — unless the budget is already exceeded — the jitter band
re-scoring with a uniform pick among the candidates.  `Math.floor
(Math.random() * length)` is an arbitrary index below `length`, modelled as
`rand` modulo `length`. -/
def searchRoot (o : Oracle) (deadline : Bool) (st : SearchState) (legalMoves : List Move)
    (depth : Nat) (color : Color) (level : Int) (t : Nat) : Option Move × Nat :=
  let isMaximizing := st.activeColor = color
  let ordered := legalMoves.mergeSort fun a b => decide (rootOrderScore b ≤ rootOrderScore a)
  let initScore : ExtInt := if isMaximizing then .negInf else .posInf
  let loopRes := searchRootLoop o deadline level color st (depth - 1) isMaximizing ordered
    ordered.head? initScore .negInf .posInf t
  let bestMove := loopRes.1
  let bestScore := loopRes.2.1
  let c := checkClock deadline o loopRes.2.2
  if !c.1 then
    let jitter := randomness level
    if 0 < jitter && 1 < ordered.length then
      let cl := candidatesLoop o deadline st color bestScore jitter ordered [] c.2
      let candidates := cl.1
      if 0 < candidates.length then
        (candidates.get? (o.rand cl.2 % candidates.length), cl.2 + 1)
      else (bestMove, cl.2)
    else (bestMove, c.2)
  else (bestMove, c.2)

/-- AI.js `pickLevel1Move`: 1-ply scores, sort descending, keep the top
`max(1, floor(0.4 · n))`, uniform random pick (index modelled as `rand`
modulo the kept length; for the sizes that occur the JS float product floors
to `2n/5`). -/
def pickLevel1Move (o : Oracle) (state : SearchState) (moves : List Move) (color : Color)
    (t : Nat) : Option Move × Nat :=
  let scored := moves.map fun m =>
    let next := applyMoveSearch state m state.activeColor
    (m, evaluate next.board color)
  let sorted := scored.mergeSort fun a b => decide (b.2 ≤ a.2)
  let keepCount := max 1 (scored.length * 2 / 5)
  let top := sorted.take keepCount
  ((top.get? (o.rand t % top.length)).map Prod.fst, t + 1)

/-- The `while (currentDepth <= maxDepth)` loop of AI.js
`progressiveDeepeningSearch`: both surrounding `Date.now()` budget checks are
clock polls; a completed `searchRoot` (truthy move) replaces the fallback.
The remaining-iterations fuel `maxDepth − currentDepth + 1` makes the
recursion structural. -/
def pdLoop (o : Oracle) (st : SearchState) (legalMoves : List Move) (color : Color)
    (level : Int) : Nat → Nat → Option Move → Nat → Option Move × Nat
  | 0, _, bestMove, t => (bestMove, t)
  | r + 1, currentDepth, bestMove, t =>
    if o.timedOut t then (bestMove, t + 1)
    else
      let res := searchRoot o true st legalMoves currentDepth color level (t + 1)
      let bestMove := match res.1 with
        | some m => some m
        | none => bestMove
      if o.timedOut res.2 then (bestMove, res.2 + 1)
      else pdLoop o st legalMoves color level r (currentDepth + 1) bestMove (res.2 + 1)

/-- AI.js `progressiveDeepeningSearch`: fallback `legalMoves[0]`, then depth
1, 2, … up to `maxDepth` under the budget (the `await`-yield between
iterations has no effect on the computed value). -/
def progressiveDeepeningSearch (o : Oracle) (st : SearchState) (legalMoves : List Move)
    (maxDepth : Nat) (color : Color) (level : Int) (t : Nat) : Option Move × Nat :=
  pdLoop o st legalMoves color level maxDepth 1 legalMoves.head? t

/-- AI.js `findBestMove`: clamp the level (`Number(level) || 1` then
`max 1 (min 5 ·)`), derive the nominal depth, copy the position, and return
`null` with no legal moves, the level-1 picker, or the progressive-deepening
driver (the final synchronous branch of the source is unreachable — the
clamped level is 1 or ≥ 2 — and is embedded with no deadline wired, as its
`searchRoot` call passes no timeout). -/
def findBestMove (o : Oracle) (gameState : GameState) (level : Int) (forColor : Color) :
    Option Move :=
  let clampedLevel := max 1 (min 5 (if level = 0 then 1 else level))
  let depth := depthForLevel clampedLevel
  let baseState := SearchState.ofGameState gameState
  let legalMoves := generateLegalMoves baseState.toRulesState
  if legalMoves.isEmpty then none
  else if clampedLevel = 1 then
    (pickLevel1Move o baseState legalMoves forColor 0).1
  else if 2 ≤ clampedLevel then
    (progressiveDeepeningSearch o baseState legalMoves depth forColor clampedLevel 0).1
  else
    (searchRoot o false baseState legalMoves depth forColor clampedLevel 0).1

/-!  Game.js  -/

/-- The slice of Game.js state the embedded methods read. -/
structure Game where
  state : GameState
  difficulty : Int
deriving Repr, Inhabited

/-- A `{from, to, promotion?}` move request submitted to
`Game.handlePlayerMove`. -/
structure MoveRequest where
  fromSq : Nat
  toSq : Nat
  promotion : Option PieceType
deriving DecidableEq, Repr, Inhabited

/-- The `{ success, move?, error? }` result of `Game.handlePlayerMove`. -/
structure HandleMoveResult where
  success : Bool
  move : Option Move
  error : Option String
deriving DecidableEq, Repr, Inhabited

/-- Game.js `handlePlayerMove`: reject when the game is over or out of turn;
re-derive the legal moves and accept the first with matching from/to whose
promotion matches the request when the request carries one (`!move.promotion
|| m.promotion === move.promotion`); apply on success (`notify()` recomputes
the status text). -/
def Game.handlePlayerMove (g : Game) (move : MoveRequest) : Game × HandleMoveResult :=
  if g.state.isGameOver then (g, ⟨false, none, some "Game is over"⟩)
  else if g.state.activeColor ≠ g.state.playerColor then
    (g, ⟨false, none, some "Not your turn"⟩)
  else
    let legalMoves := generateLegalMoves g.state.asRulesState
    let validMove := legalMoves.find? fun m =>
      m.fromSq == move.fromSq && m.toSq == move.toSq
        && (move.promotion.isNone || m.promotion == move.promotion)
    match validMove with
    | none => (g, ⟨false, none, some "Illegal move"⟩)
    | some vm =>
      let st := (g.state.applyMove vm).updateStatusText
      ({ g with state := st }, ⟨true, some vm, none⟩)

/-!  Theorems  -/

/-- Sum of a pointwise-negated integer map. -/
theorem listSumMapNeg (l : List Nat) (f : Nat → Int) :
    (l.map fun i => -f i).sum = -(l.map f).sum := by
  induction l with
  | nil => simp
  | cons a l ih => simp [ih]; ring

/-- C10: the static evaluation is antisymmetric in the requested perspective:
`evaluate(state, color)` equals the negation of
`evaluate(state, oppositeColor(color))`, because each piece's
material-plus-piece-square score is added for the requested color's pieces
and subtracted for the opponent's. -/
theorem spec2proof_C10 (board : Board) (color : Color) :
    evaluate board color = -evaluate board (oppositeColor color) := by
  have hpt : ∀ i, pieceContribution board (oppositeColor color) i
      = -pieceContribution board color i := by
    intro i
    unfold pieceContribution
    cases hb : boardGet board i with
    | none => simp
    | some p =>
      obtain ⟨pc, pt⟩ := p
      cases pc <;> cases color <;> simp [oppositeColor]
  have h2 : ((List.range 64).map (pieceContribution board (oppositeColor color))).sum
      = -((List.range 64).map (pieceContribution board color)).sum := by
    rw [List.map_congr_left fun i _ => hpt i]
    exact listSumMapNeg _ _
  unfold evaluate
  rw [h2]
  ring

/-- The claim's insufficient-material shapes, stated from the claim's words:
no non-king pieces at all; a single bishop or knight; or exactly two bishops
with one on each side. -/
def claimInsufficientShape (board : Board) : Bool :=
  let pieces := nonKingPieces board
  pieces.isEmpty
  || (pieces.length == 1 && pieces.all fun p => p.ptype == .B || p.ptype == .N)
  || (pieces.length == 2 && (pieces.all fun p => p.ptype == .B)
      && (pieces.countP fun p => p.color == .white) == 1
      && (pieces.countP fun p => p.color == .black) == 1)

/-- A board on which White has two bishops beside the kings: the code reports
insufficient material although the claim's shape list does not contain it. -/
def c5Board : Board :=
  [some ⟨.white, .K⟩, some ⟨.white, .B⟩, some ⟨.white, .B⟩, some ⟨.black, .K⟩]
    ++ List.replicate 60 none

/-- A GameState wrapper around `c5Board`. -/
def c5State : GameState :=
  { board := c5Board, activeColor := .white, playerColor := .white,
    castlingRights := ⟨⟨false, false⟩, ⟨false, false⟩⟩, enPassantTarget := none,
    halfmoveClock := 0, fullmoveNumber := 1, moveHistory := [], result := none,
    lastMove := none, repetitionMap := [], selectedSquare := none,
    cachedLegalTargets := [], statusText := "", lastMoveText := none }

/-- C5 counterexample: with king + two same-colored bishops versus bare king,
`isInsufficientMaterial` returns true, yet the material is none of the
claim's shapes (the two bishops are not one on each side), so the claimed
"no other configuration" direction fails. -/
theorem spec2proof_C5_counterexample :
    c5State.isInsufficientMaterial = true ∧ claimInsufficientShape c5State.board = false := by
  decide

/-- The amended shape list: the two-bishop case covers two bishops of any
side assignment. -/
def amendedInsufficientShape (board : Board) : Prop :=
  nonKingPieces board = []
  ∨ (∃ p, nonKingPieces board = [p] ∧ (p.ptype = .B ∨ p.ptype = .N))
  ∨ (∃ a b, nonKingPieces board = [a, b] ∧ a.ptype = .B ∧ b.ptype = .B)

/-- C5 (amended): `isInsufficientMaterial` returns true if and only if the
non-king pieces are empty, a single bishop or knight, or exactly two bishops
regardless of which side owns them (and regardless of square colors). -/
theorem spec2proof_C5 (st : GameState) :
    st.isInsufficientMaterial = true ↔ amendedInsufficientShape st.board := by
  unfold GameState.isInsufficientMaterial amendedInsufficientShape
  cases h : nonKingPieces st.board with
  | nil => simp
  | cons a l =>
    cases l with
    | nil => simp
    | cons b l2 =>
      cases l2 with
      | nil =>
        simp
        constructor
        · rintro ⟨h1, h2⟩
          exact ⟨a, b, ⟨rfl, rfl⟩, h1, h2⟩
        · rintro ⟨x, y, ⟨hx, hy⟩, h1, h2⟩
          subst hx
          subst hy
          exact ⟨h1, h2⟩
      | cons c l3 => simp

/-- An empty board (no kings at all). -/
def emptyRS : RulesState :=
  { board := List.replicate 64 none, activeColor := .white,
    castlingRights := ⟨⟨true, true⟩, ⟨true, true⟩⟩, enPassantTarget := none }

/-- C9 counterexample: with no white king on the board, `isInCheck` does not
fail as an internal-invariant violation — it returns the ordinary boolean
`false`. -/
theorem spec2proof_C9_counterexample :
    findKingSquare emptyRS.board .white = none ∧ isInCheck emptyRS none = false := by
  decide

/-- C9 (amended): when no king of the requested color is present `isInCheck`
returns `false` (an ordinary boolean, not a failure); when the king is
present it returns whether the king's square is attacked by the opposing
color. -/
theorem spec2proof_C9_amended (state : RulesState) (colorOverride : Option Color) :
    (findKingSquare state.board (colorOverride.getD state.activeColor) = none →
      isInCheck state colorOverride = false)
    ∧ ∀ kingSquare,
        findKingSquare state.board (colorOverride.getD state.activeColor) = some kingSquare →
        isInCheck state colorOverride
          = squareAttackedBy state kingSquare
              (oppositeColor (colorOverride.getD state.activeColor)) := by
  constructor
  · intro h
    simp [isInCheck, h]
  · intro kingSquare h
    simp [isInCheck, h]

/-- A board with only the white king on e1. -/
def kingOnlyRS : RulesState :=
  { board := (List.replicate 4 none) ++ [some ⟨.white, .K⟩] ++ List.replicate 59 none,
    activeColor := .white,
    castlingRights := ⟨⟨false, false⟩, ⟨false, false⟩⟩, enPassantTarget := none }

/-- C9 witness: the amended theorem applied at the king-on-e1 position. -/
theorem spec2proof_C9_witness :
    findKingSquare kingOnlyRS.board .white = some 4
    ∧ isInCheck kingOnlyRS none
        = squareAttackedBy kingOnlyRS 4 (oppositeColor .white) :=
  ⟨by decide, (spec2proof_C9_amended kingOnlyRS none).2 4 (by decide)⟩

/-- C2: every move in `generateLegalMoves`, applied to the scratch copy built
by the legality filter (placement only, including en-passant pawn removal,
promotion replacement, and castling rook relocation), leaves a board on which
the moving side's king is found and is not attacked by the opposing color. -/
theorem spec2proof_C2 (state : RulesState) (move : Move)
    (h : move ∈ generateLegalMoves state) :
    ∃ kingSq,
      findKingSquare (simulateMoveBoard state move) state.activeColor = some kingSq
      ∧ squareAttackedBy
          { board := simulateMoveBoard state move,
            activeColor := oppositeColor state.activeColor,
            castlingRights := state.castlingRights,
            enPassantTarget := state.enPassantTarget }
          kingSq (oppositeColor state.activeColor) = false := by
  have hb := (List.mem_filter.mp h).2
  rw [Bool.not_eq_true'] at hb
  simp only [leavesKingInCheck] at hb
  cases hk : findKingSquare (simulateMoveBoard state move) state.activeColor with
  | none => rw [hk] at hb; simp at hb
  | some kingSq =>
    rw [hk] at hb
    exact ⟨kingSq, rfl, hb⟩

/-- Two bare kings (white e1, black h8), white to move. -/
def c2State : RulesState :=
  { board := [some ⟨.white, .K⟩] ++ List.replicate 62 none ++ [some ⟨.black, .K⟩],
    activeColor := .white,
    castlingRights := ⟨⟨false, false⟩, ⟨false, false⟩⟩, enPassantTarget := none }

/-- C2 witness: the theorem applied to the legal king move a1–b1. -/
theorem spec2proof_C2_witness :
    createMove 0 1 ⟨.white, .K⟩ ∈ generateLegalMoves c2State
    ∧ ∃ kingSq,
        findKingSquare (simulateMoveBoard c2State (createMove 0 1 ⟨.white, .K⟩)) .white
          = some kingSq
        ∧ squareAttackedBy
            { board := simulateMoveBoard c2State (createMove 0 1 ⟨.white, .K⟩),
              activeColor := oppositeColor .white,
              castlingRights := c2State.castlingRights,
              enPassantTarget := c2State.enPassantTarget }
            kingSq (oppositeColor .white) = false :=
  ⟨by decide, spec2proof_C2 c2State (createMove 0 1 ⟨.white, .K⟩) (by decide)⟩

/-- C6: once the result is terminal the state is immutable — `applyMove`
returns it unchanged, `updateResult` keeps the existing terminal result, and
`handleSelection` performs no move and no change. -/
theorem spec2proof_C6 (st : GameState) (move : Move) (square : Nat) (side : Color)
    (h : st.isGameOver = true) :
    st.applyMove move = st
    ∧ st.updateResult = st
    ∧ st.handleSelection square side = (st, ⟨false, none, []⟩) := by
  refine ⟨?_, ?_, ?_⟩ <;>
    simp [GameState.applyMove, GameState.updateResult, GameState.handleSelection, h]

/-- A finished game (checkmate already recorded). -/
def c6State : GameState :=
  { board := [some ⟨.white, .K⟩] ++ List.replicate 62 none ++ [some ⟨.black, .K⟩],
    activeColor := .black, playerColor := .white,
    castlingRights := ⟨⟨false, false⟩, ⟨false, false⟩⟩, enPassantTarget := none,
    halfmoveClock := 3, fullmoveNumber := 9, moveHistory := ["Qh4"],
    result := some ⟨"checkmate", some .white, some "Checkmate"⟩,
    lastMove := none, repetitionMap := [], selectedSquare := none,
    cachedLegalTargets := [], statusText := "", lastMoveText := none }

/-- C6 witness: the theorem applied to the finished game. -/
theorem spec2proof_C6_witness :
    c6State.isGameOver = true
    ∧ (c6State.applyMove (createMove 0 1 ⟨.white, .K⟩) = c6State
      ∧ c6State.updateResult = c6State
      ∧ c6State.handleSelection 0 .black = (c6State, ⟨false, none, []⟩)) :=
  ⟨by decide, spec2proof_C6 c6State (createMove 0 1 ⟨.white, .K⟩) 0 .black (by decide)⟩

/-- `applyMoveCore` never touches the result field. -/
theorem applyMoveCore_result (st : GameState) (move : Move) :
    (st.applyMoveCore move).result = st.result := by
  unfold GameState.applyMoveCore
  cases h : boardGet st.board move.fromSq with
  | none => rfl
  | some p => simp [GameState.recordRepetitionKey]

/-- `applyMoveCore` flips the turn to the opposite of the moving piece's
color. -/
theorem applyMoveCore_activeColor (st : GameState) (move : Move) (p : Piece)
    (h : boardGet st.board move.fromSq = some p) :
    (st.applyMoveCore move).activeColor = oppositeColor p.color := by
  unfold GameState.applyMoveCore
  rw [h]
  simp [GameState.recordRepetitionKey]

/-- `updateStatusText` only writes the status text. -/
theorem updateStatusText_result (st : GameState) :
    (st.updateStatusText).result = st.result := by
  unfold GameState.updateStatusText
  cases h : st.result with
  | none => rfl
  | some r =>
    dsimp only
    split_ifs <;> rfl

/-- `isGameOver` only reads the result field. -/
theorem applyMoveCore_isGameOver (st : GameState) (move : Move) :
    (st.applyMoveCore move).isGameOver = st.isGameOver := by
  unfold GameState.isGameOver
  rw [applyMoveCore_result]

/-- `oppositeColor` is an involution. -/
theorem oppositeColor_oppositeColor (c : Color) : oppositeColor (oppositeColor c) = c := by
  cases c <;> rfl

/-- C3: after `applyMove` on a non-terminal state (with an occupied origin,
per the documented legality precondition), the recomputed result follows the
claimed priority ladder for the new side to move: no legal moves and in check
gives checkmate won by the side that just moved; no legal moves otherwise
gives stalemate; then halfmove clock ≥ 100, any repetition count ≥ 3, and
insufficient material give the respective draws, else ongoing. -/
theorem spec2proof_C3 (st : GameState) (move : Move) (p : Piece)
    (hgo : st.isGameOver = false)
    (hocc : boardGet st.board move.fromSq = some p) :
    (st.applyMove move).result =
      some (
        if (analyzePosition (st.applyMoveCore move).asRulesState).1 = false then
          if (analyzePosition (st.applyMoveCore move).asRulesState).2 = true then
            ⟨"checkmate", some p.color, some "Checkmate"⟩
          else ⟨"stalemate", none, some "Stalemate"⟩
        else if 100 ≤ (st.applyMoveCore move).halfmoveClock then
          ⟨"draw", none, some "50-move rule"⟩
        else if (st.applyMoveCore move).hasThreefoldRepetition = true then
          ⟨"draw", none, some "Threefold repetition"⟩
        else if (st.applyMoveCore move).isInsufficientMaterial = true then
          ⟨"draw", none, some "Insufficient material"⟩
        else ⟨"ongoing", none, none⟩) := by
  unfold GameState.applyMove
  rw [hgo]
  simp only [Bool.false_eq_true, if_false]
  rw [updateStatusText_result]
  have hgo2 : (st.applyMoveCore move).isGameOver = false := by
    rw [applyMoveCore_isGameOver]
    exact hgo
  have hflip : oppositeColor (st.applyMoveCore move).activeColor = p.color := by
    rw [applyMoveCore_activeColor st move p hocc, oppositeColor_oppositeColor]
  unfold GameState.updateResult
  rw [hgo2]
  simp only [Bool.false_eq_true, if_false]
  rcases hA : analyzePosition (st.applyMoveCore move).asRulesState with ⟨a1, a2⟩
  cases a1 <;> cases a2 <;> simp [hA, hflip] <;> first
  | rfl
  | (split_ifs <;> rfl)

/-- A pawn-move position for the C3 witness: white pawn e2, kings a1/h8. -/
def c3State : GameState :=
  { board := [some ⟨.white, .K⟩] ++ List.replicate 11 none ++ [some ⟨.white, .P⟩]
      ++ List.replicate 50 none ++ [some ⟨.black, .K⟩],
    activeColor := .white, playerColor := .white,
    castlingRights := ⟨⟨false, false⟩, ⟨false, false⟩⟩, enPassantTarget := none,
    halfmoveClock := 0, fullmoveNumber := 1, moveHistory := [], result := none,
    lastMove := none, repetitionMap := [], selectedSquare := none,
    cachedLegalTargets := [], statusText := "", lastMoveText := none }

/-- C3 witness: the theorem applied to the pawn push e2–e3. -/
theorem spec2proof_C3_witness :
    c3State.isGameOver = false
    ∧ boardGet c3State.board 12 = some ⟨.white, .P⟩
    ∧ (c3State.applyMove (createMove 12 20 ⟨.white, .P⟩)).result =
      some (
        if (analyzePosition (c3State.applyMoveCore (createMove 12 20 ⟨.white, .P⟩)).asRulesState).1
            = false then
          if (analyzePosition
                (c3State.applyMoveCore (createMove 12 20 ⟨.white, .P⟩)).asRulesState).2
              = true then
            ⟨"checkmate", some (Piece.color ⟨.white, .P⟩), some "Checkmate"⟩
          else ⟨"stalemate", none, some "Stalemate"⟩
        else if 100 ≤ (c3State.applyMoveCore (createMove 12 20 ⟨.white, .P⟩)).halfmoveClock then
          ⟨"draw", none, some "50-move rule"⟩
        else if (c3State.applyMoveCore (createMove 12 20 ⟨.white, .P⟩)).hasThreefoldRepetition
            = true then
          ⟨"draw", none, some "Threefold repetition"⟩
        else if (c3State.applyMoveCore (createMove 12 20 ⟨.white, .P⟩)).isInsufficientMaterial
            = true then
          ⟨"draw", none, some "Insufficient material"⟩
        else ⟨"ongoing", none, none⟩) :=
  ⟨by decide, by decide,
    spec2proof_C3 c3State (createMove 12 20 ⟨.white, .P⟩) ⟨.white, .P⟩ (by decide) (by decide)⟩

/-- `Map.set` with a fresh key appends the entry. -/
theorem mapSet_append (m : List (String × Nat)) (k : String) (v : Nat)
    (h : ∀ e ∈ m, e.1 ≠ k) : mapSet m k v = m ++ [(k, v)] := by
  induction m with
  | nil => rfl
  | cons e rest ih =>
    have hek : (e.1 == k) = false := by
      rw [beq_eq_false_iff_ne]
      exact h e (List.mem_cons_self e rest)
    unfold mapSet
    rw [hek]
    simp only [Bool.false_eq_true, if_false, List.cons_append, List.cons.injEq, true_and]
    exact ih fun e2 he2 => h e2 (List.mem_cons_of_mem _ he2)

/-- Rebuilding a map by `Map.set` over an entry list with pairwise-distinct
keys appends the whole list. -/
theorem rebuildFold (l : List (String × Nat)) :
    ∀ acc : List (String × Nat),
      (∀ e ∈ l, ∀ e2 ∈ acc, e2.1 ≠ e.1) →
      (l.map Prod.fst).Nodup →
      l.foldl (fun m e => mapSet m e.1 e.2) acc = acc ++ l := by
  induction l with
  | nil => intro acc _ _; simp
  | cons e rest ih =>
    intro acc hdisj hnd
    rw [List.foldl_cons,
      mapSet_append acc e.1 e.2 fun e2 he2 => hdisj e (List.mem_cons_self e rest) e2 he2]
    rw [List.map_cons, List.nodup_cons] at hnd
    have hstep := ih (acc ++ [e]) ?_ hnd.2
    · rw [hstep]
      simp
    · intro e3 he3 e2 he2
      rcases List.mem_append.mp he2 with hacc | hsingle
      · exact hdisj e3 (List.mem_cons_of_mem _ he3) e2 hacc
      · have : e2 = e := by simpa using hsingle
        subst this
        intro hk
        exact hnd.1 (hk ▸ List.mem_map_of_mem Prod.fst he3)

/-- C8: serializing a GameState and reconstructing one from the serialized
data reproduces the claimed fields — board array, active color, player
color, castling rights, en-passant target, halfmove clock, fullmove number,
move history, result, and the repetition map restored from the explicit
ordered entry list.  The hypotheses are invariants of every state the
program builds: the fullmove number starts at 1 and only grows (the
constructor's `|| 1` default collapses a 0), and a JS `Map` never stores a
key twice. -/
theorem spec2proof_C8 (st : GameState)
    (hfm : st.fullmoveNumber ≠ 0)
    (hnd : (st.repetitionMap.map Prod.fst).Nodup) :
    (GameState.rehydrate st.serialize).board = st.board
    ∧ (GameState.rehydrate st.serialize).activeColor = st.activeColor
    ∧ (GameState.rehydrate st.serialize).playerColor = st.playerColor
    ∧ (GameState.rehydrate st.serialize).castlingRights = st.castlingRights
    ∧ (GameState.rehydrate st.serialize).enPassantTarget = st.enPassantTarget
    ∧ (GameState.rehydrate st.serialize).halfmoveClock = st.halfmoveClock
    ∧ (GameState.rehydrate st.serialize).fullmoveNumber = st.fullmoveNumber
    ∧ (GameState.rehydrate st.serialize).moveHistory = st.moveHistory
    ∧ (GameState.rehydrate st.serialize).result = st.result
    ∧ (GameState.rehydrate st.serialize).repetitionMap = st.repetitionMap := by
  unfold GameState.rehydrate GameState.serialize
  refine ⟨rfl, rfl, rfl, rfl, rfl, rfl, ?_, rfl, rfl, ?_⟩
  · simp [hfm]
  · simpa using rebuildFold st.repetitionMap [] (by simp) hnd

/-- A mid-game state with a two-entry repetition map for the C8 witness. -/
def c8State : GameState :=
  { board := [some ⟨.white, .K⟩] ++ List.replicate 62 none ++ [some ⟨.black, .K⟩],
    activeColor := .black, playerColor := .white,
    castlingRights := ⟨⟨true, false⟩, ⟨false, true⟩⟩, enPassantTarget := some 20,
    halfmoveClock := 7, fullmoveNumber := 5, moveHistory := ["e4", "e5"],
    result := some ⟨"ongoing", none, none⟩,
    lastMove := some (12, 28), repetitionMap := [("posA", 2), ("posB", 1)],
    selectedSquare := none, cachedLegalTargets := [], statusText := "",
    lastMoveText := none }

/-- C8 witness: the round trip applied to the concrete mid-game state. -/
theorem spec2proof_C8_witness :
    c8State.fullmoveNumber ≠ 0
    ∧ (c8State.repetitionMap.map Prod.fst).Nodup
    ∧ (GameState.rehydrate c8State.serialize).board = c8State.board
    ∧ (GameState.rehydrate c8State.serialize).repetitionMap = c8State.repetitionMap :=
  ⟨by decide, by decide,
    (spec2proof_C8 c8State (by decide) (by decide)).1,
    (spec2proof_C8 c8State (by decide) (by decide)).2.2.2.2.2.2.2.2.2⟩

/-- The claim's "exact match" predicate, stated from the claim's words: same
from and to squares, and a matching promotion piece whenever the candidate
legal move is a promotion. -/
def claimExactMatch (req : MoveRequest) (m : Move) : Bool :=
  m.fromSq == req.fromSq && m.toSq == req.toSq
    && (!m.promotion.isSome || req.promotion == m.promotion)

/-- A position with a white pawn about to promote (e7), kings a1/h8, White
(the human side) to move. -/
def c7State : GameState :=
  { board := [some ⟨.white, .K⟩] ++ List.replicate 51 none ++ [some ⟨.white, .P⟩]
      ++ List.replicate 10 none ++ [some ⟨.black, .K⟩],
    activeColor := .white, playerColor := .white,
    castlingRights := ⟨⟨false, false⟩, ⟨false, false⟩⟩, enPassantTarget := none,
    halfmoveClock := 0, fullmoveNumber := 1, moveHistory := [], result := none,
    lastMove := none, repetitionMap := [], selectedSquare := none,
    cachedLegalTargets := [], statusText := "", lastMoveText := none }

/-- The Game wrapper around `c7State`. -/
def c7Game : Game :=
  { state := c7State, difficulty := 3 }

/-- C7 counterexample: the promotionless request e7–e8 is accepted (the code
applies the first matching candidate, the queen promotion), although no legal
candidate is an exact match in the claim's sense — every e7–e8 candidate is a
promotion and the request names no promotion piece. -/
theorem spec2proof_C7_counterexample :
    (c7Game.handlePlayerMove ⟨52, 60, none⟩).2.success = true
    ∧ (generateLegalMoves c7Game.state.asRulesState).all
        (fun m => !claimExactMatch ⟨52, 60, none⟩ m) = true := by
  decide

/-- C7 (amended): while the game is ongoing and it is the requester's turn,
the request is accepted iff some legal move has the same from and to squares
and either the request names no promotion piece (a promotion candidate is
then accepted as-is) or the candidate's promotion equals the requested one;
a rejected request leaves the Game unchanged. -/
theorem spec2proof_C7_amended (g : Game) (req : MoveRequest)
    (hgo : g.state.isGameOver = false)
    (hturn : g.state.activeColor = g.state.playerColor) :
    ((g.handlePlayerMove req).2.success = true ↔
      ∃ m ∈ generateLegalMoves g.state.asRulesState,
        m.fromSq = req.fromSq ∧ m.toSq = req.toSq
          ∧ (req.promotion = none ∨ m.promotion = req.promotion))
    ∧ ((g.handlePlayerMove req).2.success = false → (g.handlePlayerMove req).1 = g) := by
  unfold Game.handlePlayerMove
  rw [hgo, hturn]
  simp only [Bool.false_eq_true, if_false, ne_eq, not_true_eq_false]
  cases hf : (generateLegalMoves g.state.asRulesState).find? fun m =>
      m.fromSq == req.fromSq && m.toSq == req.toSq
        && (req.promotion.isNone || m.promotion == req.promotion) with
  | none =>
    rw [List.find?_eq_none] at hf
    constructor
    · simp only [Bool.false_eq_true, false_iff]
      rintro ⟨m, hm, h1, h2, h3⟩
      apply hf m hm
      simp only [Bool.and_eq_true, beq_iff_eq, Bool.or_eq_true, Option.isNone_iff_eq_none]
      refine ⟨⟨h1, h2⟩, ?_⟩
      rcases h3 with h3 | h3
      · exact Or.inl h3
      · exact Or.inr h3
    · intro _
      rfl
  | some vm =>
    constructor
    · simp only [true_iff]
      have hmem := List.mem_of_find?_eq_some hf
      have hp := List.find?_some hf
      simp only [Bool.and_eq_true, beq_iff_eq, Bool.or_eq_true, Option.isNone_iff_eq_none] at hp
      exact ⟨vm, hmem, hp.1.1, hp.1.2, by
        rcases hp.2 with h | h
        · exact Or.inl h
        · exact Or.inr h⟩
    · intro hfalse
      simp at hfalse

/-- C7 witness: the amended acceptance condition applied to the explicit
rook-promotion request on the concrete promotion position. -/
theorem spec2proof_C7_witness :
    c7Game.state.isGameOver = false
    ∧ c7Game.state.activeColor = c7Game.state.playerColor
    ∧ (((c7Game.handlePlayerMove ⟨52, 60, some .R⟩).2.success = true ↔
        ∃ m ∈ generateLegalMoves c7Game.state.asRulesState,
          m.fromSq = 52 ∧ m.toSq = 60
            ∧ ((some PieceType.R : Option PieceType) = none ∨ m.promotion = some .R))
      ∧ ((c7Game.handlePlayerMove ⟨52, 60, some .R⟩).2.success = false →
          (c7Game.handlePlayerMove ⟨52, 60, some .R⟩).1 = c7Game)) :=
  ⟨by decide, by decide,
    spec2proof_C7_amended c7Game ⟨52, 60, some .R⟩ (by decide) (by decide)⟩


/-- The level-1 picker returns a member of the supplied move list whenever
that list is non-empty. -/
theorem pickLevel1Move_mem (o : Oracle) (state : SearchState) (moves : List Move)
    (color : Color) (t : Nat) (h : moves ≠ []) :
    ∃ m, (pickLevel1Move o state moves color t).1 = some m ∧ m ∈ moves := by
  unfold pickLevel1Move
  set scored := moves.map fun m =>
    (m, evaluate (applyMoveSearch state m state.activeColor).board color) with hscored
  set sorted := scored.mergeSort fun a b => decide (b.2 ≤ a.2) with hsorted
  set top := sorted.take (max 1 (scored.length * 2 / 5)) with htop
  have hperm := List.mergeSort_perm scored fun a b => decide (b.2 ≤ a.2)
  have hslen : 0 < sorted.length := by
    rw [hsorted, hperm.length_eq, hscored, List.length_map]
    exact List.length_pos.mpr h
  have htlen : 0 < top.length := by
    rw [htop, List.length_take]
    exact lt_min (Nat.lt_of_lt_of_le Nat.zero_lt_one (Nat.le_max_left _ _)) hslen
  have hmod : o.rand t % top.length < top.length := Nat.mod_lt _ htlen
  obtain ⟨e, he⟩ : ∃ e, top.get? (o.rand t % top.length) = some e := by
    rw [List.get?_eq_getElem?, List.getElem?_eq_getElem hmod]
    exact ⟨_, rfl⟩
  have hetop : e ∈ top := List.get?_mem he
  have hescored : e ∈ scored := hperm.mem_iff.mp (List.mem_of_mem_take hetop)
  obtain ⟨m0, hm0, hm0e⟩ := List.mem_map.mp hescored
  refine ⟨e.1, ?_, ?_⟩
  · show (Option.map Prod.fst (top.get? (o.rand t % top.length)), t + 1).1 = some e.1
    rw [he]
    rfl
  · rw [← hm0e]
    exact hm0

/-- Any move the root alpha-beta loop reports comes from its initial best
move or its move list. -/
theorem searchRootLoop_mem (o : Oracle) (dl : Bool) (level : Int) (color : Color)
    (st : SearchState) (d : Nat) (mx : Bool) (legal : List Move) :
    ∀ (ms : List Move) (bm : Option Move) (bs alpha beta : ExtInt) (t : Nat),
      (∀ m0, bm = some m0 → m0 ∈ legal) → (∀ m0, m0 ∈ ms → m0 ∈ legal) →
      ∀ m1, (searchRootLoop o dl level color st d mx ms bm bs alpha beta t).1 = some m1 →
        m1 ∈ legal := by
  intro ms
  induction ms with
  | nil =>
    intro bm bs alpha beta t hbm _ m1 hm1
    exact hbm m1 hm1
  | cons m rest ih =>
    intro bm bs alpha beta t hbm hms m1 hm1
    have hmem : m ∈ legal := hms m (List.mem_cons_self m rest)
    have hrest : ∀ m0, m0 ∈ rest → m0 ∈ legal :=
      fun m0 hm0 => hms m0 (List.mem_cons_of_mem m hm0)
    unfold searchRootLoop at hm1
    dsimp only at hm1
    repeat' split at hm1
    all_goals try dsimp only at hm1
    all_goals
      first
      | exact hbm m1 hm1
      | (rw [Option.some_inj] at hm1; exact hm1 ▸ hmem)
      | exact ih _ _ _ _ _ hbm hrest m1 hm1
      | exact ih _ _ _ _ _ (fun m0 hm0 => by
          rw [Option.some_inj] at hm0
          exact hm0 ▸ hmem) hrest m1 hm1

/-- The root alpha-beta loop keeps a present best move present. -/
theorem searchRootLoop_isSome (o : Oracle) (dl : Bool) (level : Int) (color : Color)
    (st : SearchState) (d : Nat) (mx : Bool) :
    ∀ (ms : List Move) (bm : Option Move) (bs alpha beta : ExtInt) (t : Nat),
      bm.isSome = true →
      (searchRootLoop o dl level color st d mx ms bm bs alpha beta t).1.isSome = true := by
  intro ms
  induction ms with
  | nil =>
    intro bm bs alpha beta t hbm
    exact hbm
  | cons m rest ih =>
    intro bm bs alpha beta t hbm
    unfold searchRootLoop
    dsimp only
    repeat' split
    all_goals
      first
      | exact hbm
      | rfl
      | exact ih _ _ _ _ _ hbm
      | exact ih _ _ _ _ _ rfl

/-- Every move the jitter candidate loop collects comes from its accumulator
or its move list. -/
theorem candidatesLoop_subset (o : Oracle) (dl : Bool) (st : SearchState) (color : Color)
    (bs : ExtInt) (jitter : Rat) :
    ∀ (ms acc : List Move) (t : Nat) (x : Move),
      x ∈ (candidatesLoop o dl st color bs jitter ms acc t).1 → x ∈ acc ∨ x ∈ ms := by
  intro ms
  induction ms with
  | nil =>
    intro acc t x hx
    left
    exact hx
  | cons m rest ih =>
    intro acc t x hx
    unfold candidatesLoop at hx
    dsimp only at hx
    split at hx
    · left
      exact hx
    · rcases ih _ _ _ hx with hacc | hrest2
      · split at hacc
        · rcases List.mem_append.mp hacc with h1 | h2
          · left
            exact h1
          · right
            have : x = m := by simpa using h2
            rw [this]
            exact List.mem_cons_self m rest
        · left
          exact hacc
      · right
        exact List.mem_cons_of_mem m hrest2

/-- `searchRoot` returns a member of the supplied legal-move list whenever
that list is non-empty (under every oracle behavior). -/
theorem searchRoot_mem (o : Oracle) (dl : Bool) (st : SearchState) (legalMoves : List Move)
    (depth : Nat) (color : Color) (level : Int) (t : Nat) (h : legalMoves ≠ []) :
    ∃ m, (searchRoot o dl st legalMoves depth color level t).1 = some m ∧ m ∈ legalMoves := by
  unfold searchRoot
  dsimp only
  set le := fun a b : Move => decide (rootOrderScore b ≤ rootOrderScore a) with hle
  have hperm := List.mergeSort_perm legalMoves le
  have hlen : 0 < (legalMoves.mergeSort le).length := by
    rw [hperm.length_eq]
    exact List.length_pos.mpr h
  obtain ⟨m0, hm0⟩ : ∃ m0, (legalMoves.mergeSort le).head? = some m0 := by
    cases hx : legalMoves.mergeSort le with
    | nil => rw [hx] at hlen; simp at hlen
    | cons a l => exact ⟨a, rfl⟩
  have hordmem : ∀ x : Move, x ∈ legalMoves.mergeSort le → x ∈ legalMoves := fun x hx =>
    hperm.mem_iff.mp hx
  have hbm0 : ∀ x, (legalMoves.mergeSort le).head? = some x → x ∈ legalMoves := by
    intro x hx
    cases hy : legalMoves.mergeSort le with
    | nil => rw [hy] at hx; simp at hx
    | cons a l =>
      rw [hy] at hx
      have hax : a = x := by simpa using hx
      rw [← hax]
      exact hordmem a (hy ▸ List.mem_cons_self a l)
  generalize hinit : (if st.activeColor = color then ExtInt.negInf else ExtInt.posInf) = initScore
  set loopRes := searchRootLoop o dl level color st (depth - 1)
    (decide (st.activeColor = color)) (legalMoves.mergeSort le)
    (legalMoves.mergeSort le).head? initScore ExtInt.negInf ExtInt.posInf t with hloopRes
  have hloopSome : loopRes.1.isSome = true := by
    rw [hloopRes]
    exact searchRootLoop_isSome o dl level color st (depth - 1)
      (decide (st.activeColor = color)) (legalMoves.mergeSort le)
      (legalMoves.mergeSort le).head? initScore ExtInt.negInf ExtInt.posInf t
      (by rw [hm0]; rfl)
  obtain ⟨bmv, hbmv⟩ := Option.isSome_iff_exists.mp hloopSome
  have hbmvMem : bmv ∈ legalMoves := by
    rw [hloopRes] at hbmv
    exact searchRootLoop_mem o dl level color st (depth - 1)
      (decide (st.activeColor = color)) legalMoves (legalMoves.mergeSort le)
      (legalMoves.mergeSort le).head? initScore ExtInt.negInf ExtInt.posInf t
      hbm0 hordmem bmv hbmv
  cases hc1 : (checkClock dl o loopRes.2.2).1 with
  | true =>
    simp only [Bool.not_true, Bool.false_eq_true, if_false]
    exact ⟨bmv, hbmv, hbmvMem⟩
  | false =>
    simp only [Bool.not_false, eq_self_iff_true, if_true]
    cases hc2 : (decide (0 < randomness level) && decide (1 < (legalMoves.mergeSort le).length)) with
    | false =>
      simp only [Bool.false_eq_true, if_false]
      exact ⟨bmv, hbmv, hbmvMem⟩
    | true =>
      simp only [eq_self_iff_true, if_true]
      split
      · rename_i hclen
        set cl := candidatesLoop o dl st color loopRes.2.1 (randomness level)
          (legalMoves.mergeSort le) [] (checkClock dl o loopRes.2.2).2 with hcl
        have hcmod : o.rand cl.2 % cl.1.length < cl.1.length := Nat.mod_lt _ hclen
        obtain ⟨e, he⟩ : ∃ e, cl.1.get? (o.rand cl.2 % cl.1.length) = some e := by
          rw [List.get?_eq_getElem?, List.getElem?_eq_getElem hcmod]
          exact ⟨_, rfl⟩
        refine ⟨e, by rw [he], ?_⟩
        have hec : e ∈ cl.1 := List.get?_mem he
        rw [hcl] at hec
        rcases candidatesLoop_subset o dl st color loopRes.2.1 (randomness level)
            (legalMoves.mergeSort le) [] (checkClock dl o loopRes.2.2).2 e hec with hacc | hord
        · simp at hacc
        · exact hordmem e hord
      · exact ⟨bmv, hbmv, hbmvMem⟩

/-- The progressive-deepening loop returns a member of the legal-move list
when seeded with one. -/
theorem pdLoop_mem (o : Oracle) (st : SearchState) (legalMoves : List Move) (color : Color)
    (level : Int) (h : legalMoves ≠ []) :
    ∀ (fuel cd : Nat) (bm : Option Move) (t : Nat),
      (∀ m0, bm = some m0 → m0 ∈ legalMoves) → bm.isSome = true →
      ∃ m, (pdLoop o st legalMoves color level fuel cd bm t).1 = some m ∧ m ∈ legalMoves := by
  intro fuel
  induction fuel with
  | zero =>
    intro cd bm t hbm hsome
    obtain ⟨m, hm⟩ := Option.isSome_iff_exists.mp hsome
    exact ⟨m, hm, hbm m hm⟩
  | succ r ih =>
    intro cd bm t hbm hsome
    unfold pdLoop
    dsimp only
    split
    · obtain ⟨m, hm⟩ := Option.isSome_iff_exists.mp hsome
      exact ⟨m, hm, hbm m hm⟩
    · obtain ⟨ms, hms, hmem⟩ := searchRoot_mem o true st legalMoves cd color level (t + 1) h
      rw [hms]
      split
      · exact ⟨ms, rfl, hmem⟩
      · exact ih _ _ _ (fun m0 h0 => by
            rw [Option.some_inj] at h0
            exact h0 ▸ hmem) rfl

/-- C1: for every position, difficulty level, and timing/randomness behavior,
`findBestMove` returns a member of the legal-move set whenever that set is
non-empty, and returns none exactly when it is empty. -/
theorem spec2proof_C1 (o : Oracle) (gameState : GameState) (level : Int) (forColor : Color) :
    (generateLegalMoves (SearchState.ofGameState gameState).toRulesState = [] →
      findBestMove o gameState level forColor = none)
    ∧ (generateLegalMoves (SearchState.ofGameState gameState).toRulesState ≠ [] →
      ∃ m, findBestMove o gameState level forColor = some m
        ∧ m ∈ generateLegalMoves (SearchState.ofGameState gameState).toRulesState) := by
  constructor
  · intro hempty
    unfold findBestMove
    dsimp only
    rw [if_pos]
    rw [hempty]
    rfl
  · intro hne
    unfold findBestMove
    dsimp only
    rw [if_neg (by
      intro hiso
      exact hne (List.isEmpty_iff.mp hiso))]
    set lv := max 1 (min 5 (if level = 0 then 1 else level)) with hlv
    by_cases h1 : lv = 1
    · rw [if_pos h1]
      exact pickLevel1Move_mem o _ _ forColor 0 hne
    · rw [if_neg h1]
      have h2 : 2 ≤ lv := by
        have hge : (1 : Int) ≤ lv := le_max_left _ _
        omega
      rw [if_pos h2]
      unfold progressiveDeepeningSearch
      apply pdLoop_mem o _ _ forColor _ hne
      · intro m0 hm0
        cases hx : generateLegalMoves (SearchState.ofGameState gameState).toRulesState with
        | nil => exact absurd hx hne
        | cons a l =>
          rw [hx] at hm0
          have ham : a = m0 := by simpa using hm0
          rw [← ham]
          exact List.mem_cons_self a l
      · cases hx : generateLegalMoves (SearchState.ofGameState gameState).toRulesState with
        | nil => exact absurd hx hne
        | cons a l => rfl

/-- A never-timed-out, deterministic oracle for witnesses. -/
def c1Oracle : Oracle :=
  { timedOut := fun _ => false, rand := fun _ => 0 }

/-- A two-king game for the C1 witness. -/
def c1State : GameState :=
  { board := [some ⟨.white, .K⟩] ++ List.replicate 62 none ++ [some ⟨.black, .K⟩],
    activeColor := .white, playerColor := .white,
    castlingRights := ⟨⟨false, false⟩, ⟨false, false⟩⟩, enPassantTarget := none,
    halfmoveClock := 0, fullmoveNumber := 1, moveHistory := [], result := none,
    lastMove := none, repetitionMap := [], selectedSquare := none,
    cachedLegalTargets := [], statusText := "", lastMoveText := none }

/-- C1 witness: the theorem applied at level 1 on the two-king position. -/
theorem spec2proof_C1_witness :
    generateLegalMoves (SearchState.ofGameState c1State).toRulesState ≠ []
    ∧ ∃ m, findBestMove c1Oracle c1State 1 .white = some m
        ∧ m ∈ generateLegalMoves (SearchState.ofGameState c1State).toRulesState :=
  ⟨by decide, (spec2proof_C1 c1Oracle c1State 1 .white).2 (by decide)⟩

/-- White king a1, white rook d1, black pawn d5, black king h8; White to
move has exactly one capture (Rxd5). -/
def c4State : SearchState :=
  { board := [some ⟨.white, .K⟩] ++ List.replicate 2 none ++ [some ⟨.white, .R⟩]
      ++ List.replicate 31 none ++ [some ⟨.black, .P⟩] ++ List.replicate 27 none
      ++ [some ⟨.black, .K⟩],
    activeColor := .white,
    castlingRights := ⟨⟨false, false⟩, ⟨false, false⟩⟩, enPassantTarget := none,
    halfmoveClock := 0, fullmoveNumber := 1 }

/-- A budget that is exceeded from the second clock poll on (monotone, as a
real wall clock is). -/
def oLate : Oracle :=
  { timedOut := fun t => decide (1 ≤ t), rand := fun _ => 0 }

/-- C4 counterexample: the budget is exceeded during the quiescence call (its
second clock poll reports timeout), yet the call returns the real score 0 —
the stand-pat value — instead of the sentinel, so "each recursive search call
returns a sentinel" fails for quiescence. -/
theorem spec2proof_C4_counterexample :
    oLate.timedOut 1 = true
    ∧ quiescence oLate true .white 65 c4State .negInf .posInf (.fin 0) 0
        = (some (.fin 0), 2) := by
  constructor
  · decide
  · decide

/-- The quiescence capture loop always produces a real score, for every
behavior of the recursive call: a sentinel from the child is coerced to 0 by
the JS negation and a mid-loop timeout returns the value so far. -/
theorem qLoop_isSome (o : Oracle) (dl : Bool) (st : SearchState) (rootColor : Color)
    (child : SearchState → ExtInt → ExtInt → ExtInt → Nat → Option ExtInt × Nat) :
    ∀ (ms : List Move) (i : Nat) (value alpha beta : ExtInt) (t : Nat),
      (qLoop o dl st rootColor child ms i value alpha beta t).1.isSome = true := by
  intro ms
  induction ms with
  | nil =>
    intro i value alpha beta t
    rfl
  | cons m rest ih =>
    intro i value alpha beta t
    unfold qLoop
    dsimp only
    repeat' split
    all_goals first
      | rfl
      | exact ih _ _ _ _ _

/-- C4 (amended), in six parts.  (1) `minimax` returns the sentinel, with no
other effect, when its entry poll reports the budget exceeded; (2) so does
`quiescence`; (3) when quiescence's entry poll passes, every later timeout is
absorbed — quiescence always returns a real score; (4) a leaf `minimax`
(depth 0) likewise absorbs a quiescence sentinel into the stand-pat score;
(5) under every timing behavior the root search still returns a member of a
non-empty legal-move list (its best move found so far); (6) the alpha-beta
loops propagate a sentinel received from a recursive `minimax` call upward
unchanged, without using it to update alpha, beta, or the best value. -/
theorem spec2proof_C4_amended :
    (∀ (o : Oracle) (lv : Int) (rc : Color) (depth : Nat) (st : SearchState)
        (a b : ExtInt) (mx : Bool) (t : Nat),
      o.timedOut t = true → minimax o true lv rc depth st a b mx t = (none, t + 1))
    ∧ (∀ (o : Oracle) (rc : Color) (fuel : Nat) (st : SearchState)
        (a b sp : ExtInt) (t : Nat),
      o.timedOut t = true → quiescence o true rc fuel st a b sp t = (none, t + 1))
    ∧ (∀ (o : Oracle) (rc : Color) (fuel : Nat) (st : SearchState)
        (a b sp : ExtInt) (t : Nat),
      o.timedOut t = false → (quiescence o true rc fuel st a b sp t).1.isSome = true)
    ∧ (∀ (o : Oracle) (lv : Int) (rc : Color) (st : SearchState)
        (a b : ExtInt) (mx : Bool) (t : Nat),
      o.timedOut t = false → (minimax o true lv rc 0 st a b mx t).1.isSome = true)
    ∧ (∀ (o : Oracle) (dl : Bool) (st : SearchState) (legal : List Move)
        (depth : Nat) (c : Color) (lv : Int) (t : Nat),
      legal ≠ [] →
        ∃ m, (searchRoot o dl st legal depth c lv t).1 = some m ∧ m ∈ legal)
    ∧ (∀ (o : Oracle) (st : SearchState)
        (child : SearchState → ExtInt → ExtInt → Nat → Option ExtInt × Nat)
        (m : Move) (rest : List Move) (i : Nat) (v a b : ExtInt) (t : Nat),
      i % 10 ≠ 0 →
      (child (applyMoveSearch st m st.activeColor) a b t).1 = none →
      minimaxLoopMax o true st child (m :: rest) i v a b t
        = (none, (child (applyMoveSearch st m st.activeColor) a b t).2)
      ∧ minimaxLoopMin o true st child (m :: rest) i v a b t
        = (none, (child (applyMoveSearch st m st.activeColor) a b t).2)) := by
  refine ⟨?_, ?_, ?_, ?_, ?_, ?_⟩
  · intro o lv rc depth st a b mx t h
    unfold minimax
    simp [checkClock, h]
  · intro o rc fuel st a b sp t h
    unfold quiescence
    simp [checkClock, h]
  · intro o rc fuel st a b sp t h
    unfold quiescence
    dsimp only
    rw [show checkClock true o t = (o.timedOut t, t + 1) from rfl, h]
    dsimp only
    rw [if_neg Bool.false_ne_true]
    repeat' split
    all_goals first
      | rfl
      | exact qLoop_isSome _ _ _ _ _ _ _ _ _ _ _
  · intro o lv rc st a b mx t h
    unfold minimax
    dsimp only
    rw [show checkClock true o t = (o.timedOut t, t + 1) from rfl, h]
    dsimp only
    rw [if_neg Bool.false_ne_true]
    rw [if_pos (by simp)]
    repeat' split
    all_goals rfl
  · intro o dl st legal depth c lv t h
    exact searchRoot_mem o dl st legal depth c lv t h
  · intro o st child m rest i v a b t hi hchild
    have hi10 : (i % 10 == 0) = false := by
      rw [beq_eq_false_iff_ne]
      exact hi
    constructor
    · unfold minimaxLoopMax
      dsimp only
      simp only [Bool.true_and, hi10, Bool.false_and, Bool.false_eq_true, if_false]
      rw [hchild]
    · unfold minimaxLoopMin
      dsimp only
      simp only [Bool.true_and, hi10, Bool.false_and, Bool.false_eq_true, if_false]
      rw [hchild]

/-- C4 witness: the amended theorem's entry-sentinel part applied to an
always-exceeded budget at the concrete position. -/
theorem spec2proof_C4_witness :
    (Oracle.mk (fun _ => true) (fun _ => 0)).timedOut 0 = true
    ∧ minimax (Oracle.mk (fun _ => true) (fun _ => 0)) true 3 .white 2 c4State
        .negInf .posInf true 0 = (none, 1) :=
  ⟨by decide,
    spec2proof_C4_amended.1 (Oracle.mk (fun _ => true) (fun _ => 0)) 3 .white 2 c4State
      .negInf .posInf true 0 (by decide)⟩
